import Mathlib

/-!
# WebServer-ProMax: Buffer, HttpResponse, WebServer, ThreadPool

A shallow embedding of `codes/buffer.cpp`, `codes/httpresponse.cpp`, `codes/webserver.cpp`
and `headers/threadpool.h`, and the properties of the growable buffer, of the response
composer, of the event handlers and of the worker pool.

Conventions of the embedding:

* a C++ `char` is a `Char`, a `std::string` / `std::vector<char>` is a `List Char`;
* `size_t` cursors and lengths are natural numbers: they measure objects that live in
  memory, allocation is taken to succeed, and under the cursor invariant every
  subtraction of the source is exact;
* the kernel (readv, stat, open, mmap) is a parameter of the functions that call it;
* a function that reads through an invalid pointer returns `none`;
* a handler of the server is the list of the calls it makes on its collaborators;
* the mutex of the worker pool makes a submission and a pass of a worker single steps;
* the mux and the timer heap, whose sources are not among the files above, follow
  sections 4.2 and 4.3 of the specification where the steps of one connection are studied.
-/

namespace WebServer

/-! ## Buffer (`codes/buffer.cpp`) -/

/-- The three members of `Buffer`: the vector and the two cursors. -/
structure Buffer where
  buffer_ : List Char
  readPos_ : Nat
  writePos_ : Nat
deriving DecidableEq

namespace Buffer

/-- The constructor `Buffer(initBufferSize)`: a zero-filled vector, both cursors at 0. -/
def new (initBufferSize : Nat) : Buffer :=
  { buffer_ := List.replicate initBufferSize '\x00', readPos_ := 0, writePos_ := 0 }

/-- The method `readableBytes()`: `writePos_ - readPos_`. -/
def readableBytes (b : Buffer) : Nat := b.writePos_ - b.readPos_

/-- The method `writableBytes()`: `buffer_.size() - writePos_`. -/
def writableBytes (b : Buffer) : Nat := b.buffer_.length - b.writePos_

/-- The method `prependableBytes()`: `readPos_`. -/
def prependableBytes (b : Buffer) : Nat := b.readPos_

/-- The bytes at `peek()` of length `readableBytes()`, as `retrieveAllToStr` copies them. -/
def readableData (b : Buffer) : List Char :=
  (b.buffer_.drop b.readPos_).take b.readableBytes

/-- The method `retrieve(len)`; the source asserts `len <= readableBytes()`. -/
def retrieve (b : Buffer) (len : Nat) : Buffer :=
  { b with readPos_ := b.readPos_ + len }

/-- The method `hasWritten(len)`. -/
def hasWritten (b : Buffer) (len : Nat) : Buffer :=
  { b with writePos_ := b.writePos_ + len }

/-- The effect of `std::copy(src, src + len, v.begin() + pos)` on the vector `v`. -/
def copyInto (v : List Char) (pos : Nat) (src : List Char) : List Char :=
  v.take pos ++ src ++ v.drop (pos + src.length)

/-- The effect of `std::vector<char>::resize(n)`: truncate, or pad with zero bytes. -/
def resize (v : List Char) (n : Nat) : List Char :=
  v.take n ++ List.replicate (n - v.length) '\x00'

/-- The method `makeSpace_(len)`: grow to `writePos_ + len + 1`, or move the readable
bytes to the front. -/
def makeSpace_ (b : Buffer) (len : Nat) : Buffer :=
  if b.writableBytes + b.prependableBytes < len then
    { b with buffer_ := resize b.buffer_ (b.writePos_ + len + 1) }
  else
    let readable := b.readableBytes
    let moved := copyInto b.buffer_ 0 ((b.buffer_.drop b.readPos_).take (b.writePos_ - b.readPos_))
    { buffer_ := moved, readPos_ := 0, writePos_ := 0 + readable }

/-- The method `ensureWritable(len)`. -/
def ensureWritable (b : Buffer) (len : Nat) : Buffer :=
  if b.writableBytes < len then b.makeSpace_ len else b

/-- The method `append(str, len)`: ensure room, copy at `beginWrite()`, advance. -/
def append (b : Buffer) (str : List Char) : Buffer :=
  let b1 := b.ensureWritable str.length
  let b2 := { b1 with buffer_ := copyInto b1.buffer_ b1.writePos_ str }
  b2.hasWritten str.length

/-- What `readv(fd, iov, 2)` did: failed with an errno, or delivered some bytes. -/
inductive ReadvResult where
  | error (errno : Int)
  | bytes (data : List Char)
deriving DecidableEq

/-- The size of the stack array `char buff[65535]` of `readFd`. -/
def STACK_BUFF : Nat := 65535

/-- What `readFd` leaves: the buffer, the returned length, and `*saveErrno` if written. -/
structure ReadFdResult where
  buf : Buffer
  len : Int
  saveErrno : Option Int
deriving DecidableEq

/-- The method `readFd(fd, saveErrno)`. The kernel fills `iov[0]`, the writable tail,
first and `iov[1]`, the stack array `buff`, with what is left. -/
def readFd (b : Buffer) (rv : ReadvResult) : ReadFdResult :=
  let writable := b.writableBytes
  match rv with
  | .error errno => { buf := b, len := -1, saveErrno := some errno }
  | .bytes data =>
    let filled := { b with buffer_ := copyInto b.buffer_ b.writePos_ (data.take writable) }
    let buff := (data.drop writable).take STACK_BUFF
    let len := data.length
    if len ≤ writable then
      { buf := filled.hasWritten len, len := len, saveErrno := none }
    else
      let full := { filled with writePos_ := filled.buffer_.length }
      { buf := full.append (buff.take (len - writable)), len := len, saveErrno := none }

/-- An operation of the cursor law: `append`, `retrieve`, or `readFd` with its readv result. -/
inductive Op where
  | append (bytes : List Char)
  | retrieve (n : Nat)
  | readFd (rv : ReadvResult)
deriving DecidableEq

/-- The operation is one the law speaks of: `retrieve(n)` with `n <= readableBytes()`, and
a readv that delivers no more than the two iovecs hold. -/
def Op.admissible (b : Buffer) : Op → Bool
  | .append _ => true
  | .retrieve n => decide (n ≤ b.readableBytes)
  | .readFd (.error _) => true
  | .readFd (.bytes data) => decide (data.length ≤ b.writableBytes + STACK_BUFF)

/-- One operation applied to the buffer. -/
def step (b : Buffer) : Op → Buffer
  | .append bytes => b.append bytes
  | .retrieve n => b.retrieve n
  | .readFd rv => (b.readFd rv).buf

/-- A sequence of operations, left to right; `none` when one is not admissible. -/
def run (b : Buffer) : List Op → Option Buffer
  | [] => some b
  | op :: ops => if op.admissible b then run (b.step op) ops else none

/-- The cursor invariant `readPos_ <= writePos_ <= buffer_.size()`. -/
def Inv (b : Buffer) : Prop :=
  b.readPos_ ≤ b.writePos_ ∧ b.writePos_ ≤ b.buffer_.length

instance (b : Buffer) : Decidable b.Inv := by
  unfold Inv; infer_instance

end Buffer

/-! ## HttpResponse (`codes/httpresponse.cpp`) -/

/-- The decimal text of `std::to_string(n)`. -/
def to_string (n : Int) : List Char := (toString n).toList

/-- The index `std::string::find_last_of(c)` returns; `none` is `npos`. -/
def find_last_of : List Char → Char → Option Nat
  | [], _ => none
  | x :: xs, c =>
    match find_last_of xs c with
    | some i => some (i + 1)
    | none => if x = c then some 0 else none

/-- The two fields of `struct stat` that the response reads. -/
structure FileStat where
  st_mode : Nat
  st_size : Nat
deriving DecidableEq

/-- The file-type mask `S_IFMT` of `<sys/stat.h>`. -/
def S_IFMT : Nat := 0o170000

/-- The directory type `S_IFDIR` of `<sys/stat.h>`. -/
def S_IFDIR : Nat := 0o040000

/-- The world-read permission bit `S_IROTH` of `<sys/stat.h>`. -/
def S_IROTH : Nat := 0o4

/-- The test `S_ISDIR(m)` of `<sys/stat.h>`. -/
def S_ISDIR (m : Nat) : Bool := (m &&& S_IFMT) == S_IFDIR

/-- What `mmap(0, len, PROT_READ, MAP_PRIVATE, fd, 0)` returned: `MAP_FAILED`, or the
address of a region, given here by the bytes it holds. -/
inductive MmapResult where
  | MAP_FAILED
  | mapped (region : List Char)
deriving DecidableEq

/-- The kernel calls of the response: `stat(path)` (`none`: it returned -1),
`open(path, O_RDONLY)` (`none`: negative, else the descriptor) and `mmap` of a descriptor
with a length. -/
structure FileSystem where
  stat : List Char → Option FileStat
  open_ : List Char → Option Nat
  mmap : Nat → Nat → MmapResult

/-- The test `*mmRet == -1` at a mapped address: the `int` there is -1 when its four
bytes are all 0xFF; the bytes of the page after the end of the file are zero. -/
def derefIsMinusOne (region : List Char) : Bool :=
  region.take 4 == ['\xff', '\xff', '\xff', '\xff']

/-- The table `SUFFIX_TYPE`. -/
def SUFFIX_TYPE : List (List Char × List Char) :=
  [ (".html".toList, "text/html".toList),
    (".xml".toList, "text/xml".toList),
    (".xhtml".toList, "application/xhtml+xml".toList),
    (".txt".toList, "text/plain".toList),
    (".rtf".toList, "application/rtf".toList),
    (".pdf".toList, "application/pdf".toList),
    (".word".toList, "application/msword".toList),
    (".png".toList, "image/png".toList),
    (".gif".toList, "image/gif".toList),
    (".jpg".toList, "image/jpeg".toList),
    (".jpeg".toList, "image/jpeg".toList),
    (".au".toList, "audio/basic".toList),
    (".mpeg".toList, "video/mpeg".toList),
    (".mpg".toList, "video/mpeg".toList),
    (".avi".toList, "video/x-msvideo".toList),
    (".gz".toList, "application/x-gzip".toList),
    (".tar".toList, "application/x-tar".toList),
    (".css".toList, "text/css ".toList),
    (".js".toList, "text/javascript ".toList) ]

/-- The table `CODE_STATUS`. -/
def CODE_STATUS : List (Int × List Char) :=
  [ (200, "OK".toList),
    (400, "Bad Request".toList),
    (403, "Forbidden".toList),
    (404, "Not Found".toList) ]

/-- The table `CODE_PATH`. -/
def CODE_PATH : List (Int × List Char) :=
  [ (400, "/400.html".toList),
    (403, "/403.html".toList),
    (404, "/404.html".toList) ]

/-- The members of `HttpResponse`; `mmFile_` is `none` for `nullptr` and otherwise the
mapped region. -/
structure HttpResponse where
  code_ : Int
  path_ : List Char
  srcDir_ : List Char
  isKeepAlive_ : Bool
  mmFile_ : Option (List Char)
  mmFileStat_ : FileStat
deriving DecidableEq

namespace HttpResponse

/-- The constructor `HttpResponse()`. -/
def new : HttpResponse :=
  { code_ := -1, path_ := [], srcDir_ := [], isKeepAlive_ := false, mmFile_ := none,
    mmFileStat_ := { st_mode := 0, st_size := 0 } }

/-- The method `unmapFile()`: munmap a held mapping and null the pointer. -/
def unmapFile (r : HttpResponse) : HttpResponse :=
  match r.mmFile_ with
  | some _ => { r with mmFile_ := none }
  | none => r

/-- The method `init(srcDir, path, isKeepAlive, code)`; the source asserts `srcDir != ""`. -/
def init (r : HttpResponse) (srcDir path : List Char) (isKeepAlive : Bool) (code : Int) :
    HttpResponse :=
  let r1 := if r.mmFile_.isSome then r.unmapFile else r
  { r1 with code_ := code, isKeepAlive_ := isKeepAlive, path_ := path, srcDir_ := srcDir,
            mmFile_ := none, mmFileStat_ := { st_mode := 0, st_size := 0 } }

/-- The method `file()`. -/
def file (r : HttpResponse) : Option (List Char) := r.mmFile_

/-- The method `fileLen()`. -/
def fileLen (r : HttpResponse) : Nat := r.mmFileStat_.st_size

/-- The method `errorHtml_()`: retarget to the error page of the code and stat it; a stat
that fails leaves `mmFileStat_` as it was. -/
def errorHtml_ (fs : FileSystem) (r : HttpResponse) : HttpResponse :=
  match CODE_PATH.lookup r.code_ with
  | some page =>
    let r1 := { r with path_ := page }
    match fs.stat (r1.srcDir_ ++ r1.path_) with
    | some st => { r1 with mmFileStat_ := st }
    | none => r1
  | none => r

/-- The method `getFileType_()`. -/
def getFileType_ (r : HttpResponse) : List Char :=
  match find_last_of r.path_ '.' with
  | none => "text/plain".toList
  | some idx =>
    let suffix := r.path_.drop idx
    match SUFFIX_TYPE.lookup suffix with
    | some type => type
    | none => "text/plain".toList

/-- The string `body` that `errorContent` builds for a code and a message. -/
def errorBody (code : Int) (message : List Char) : List Char :=
  let body := "<html><title>Error</title>".toList
  let body := body ++ "<body bgcolor=\"ffffff\">".toList
  let status :=
    match CODE_STATUS.lookup code with
    | some s => s
    | none => "Bad Request".toList
  let body := body ++ (to_string code ++ " : ".toList ++ status ++ "\n".toList)
  let body := body ++ ("<p>".toList ++ message ++ "</p>".toList)
  body ++ "<hr><em>WebServer</em></body></html>".toList

/-- The method `errorContent(buff, message)`: the Content-length line, then the body. -/
def errorContent (r : HttpResponse) (buff : Buffer) (message : List Char) : Buffer :=
  let body := errorBody r.code_ message
  let buff := buff.append ("Content-length: ".toList ++ to_string body.length ++ "\r\n\r\n".toList)
  buff.append body

/-- The method `addStateLine_(buff)`. -/
def addStateLine_ (r : HttpResponse) (buff : Buffer) : HttpResponse × Buffer :=
  match CODE_STATUS.lookup r.code_ with
  | some status =>
    (r, buff.append ("HTTP/1.1 ".toList ++ to_string r.code_ ++ " ".toList ++ status ++ "\r\n".toList))
  | none =>
    let r1 := { r with code_ := 400 }
    let status := (CODE_STATUS.lookup 400).getD []
    (r1, buff.append ("HTTP/1.1 ".toList ++ to_string r1.code_ ++ " ".toList ++ status ++ "\r\n".toList))

/-- The method `addHeader_(buff)`. -/
def addHeader_ (r : HttpResponse) (buff : Buffer) : Buffer :=
  let buff := buff.append "Connection: ".toList
  let buff :=
    if r.isKeepAlive_ then
      (buff.append "keep-alive\r\n".toList).append "keep-alive: max=6, timeout=120\r\n".toList
    else
      buff.append "close\r\n".toList
  buff.append ("Content-type: ".toList ++ r.getFileType_ ++ "\r\n".toList)

/-- The method `addContent_(buff)`. The result is `none` when the test `*mmRet == -1` reads
through `MAP_FAILED`, the pointer `(void *)-1`: that read has no defined result. -/
def addContent_ (fs : FileSystem) (r : HttpResponse) (buff : Buffer) :
    Option (HttpResponse × Buffer) :=
  match fs.open_ (r.srcDir_ ++ r.path_) with
  | none => some (r, r.errorContent buff "File Not Found!".toList)
  | some srcFd =>
    match fs.mmap srcFd r.mmFileStat_.st_size with
    | .MAP_FAILED => none
    | .mapped region =>
      if derefIsMinusOne region then
        some (r, r.errorContent buff "File Not Found!".toList)
      else
        let r1 := { r with mmFile_ := some region }
        some (r1, buff.append
          ("Content-length: ".toList ++ to_string r1.mmFileStat_.st_size ++ "\r\n\r\n".toList))

/-- The if / else-if chain that opens `makeResponse`: stat the target and set the code. -/
def statTarget (fs : FileSystem) (r : HttpResponse) : HttpResponse :=
  match fs.stat (r.srcDir_ ++ r.path_) with
  | none => { r with code_ := 404 }
  | some st =>
    let r1 := { r with mmFileStat_ := st }
    if S_ISDIR r1.mmFileStat_.st_mode then { r1 with code_ := 404 }
    else if r1.mmFileStat_.st_mode &&& S_IROTH = 0 then { r1 with code_ := 403 }
    else if r1.code_ = -1 then { r1 with code_ := 200 }
    else r1

/-- The method `makeResponse(buff)`. -/
def makeResponse (fs : FileSystem) (r : HttpResponse) (buff : Buffer) :
    Option (HttpResponse × Buffer) :=
  let r1 := statTarget fs r
  let r2 := errorHtml_ fs r1
  let (r3, buff1) := r2.addStateLine_ buff
  let buff2 := r3.addHeader_ buff1
  addContent_ fs r3 buff2

end HttpResponse

/-! ## WebServer (`codes/webserver.cpp`)

The handlers are given by the calls they make, in order, on the mux, the timer, the
connection and the sockets; what those calls returned is a parameter. Log lines are left
out. -/

/-- The flag `EPOLLIN` of `<sys/epoll.h>`. -/
def EPOLLIN : Nat := 0x001

/-- The flag `EPOLLOUT` of `<sys/epoll.h>`. -/
def EPOLLOUT : Nat := 0x004

/-- The flag `EPOLLERR` of `<sys/epoll.h>`. -/
def EPOLLERR : Nat := 0x008

/-- The flag `EPOLLHUP` of `<sys/epoll.h>`. -/
def EPOLLHUP : Nat := 0x010

/-- The flag `EPOLLRDHUP` of `<sys/epoll.h>`. -/
def EPOLLRDHUP : Nat := 0x2000

/-- The flag `EPOLLONESHOT` of `<sys/epoll.h>`. -/
def EPOLLONESHOT : Nat := 0x40000000

/-- The flag `EPOLLET` of `<sys/epoll.h>`. -/
def EPOLLET : Nat := 0x80000000

/-- The errno `EAGAIN` of `<errno.h>`. -/
def EAGAIN : Int := 11

/-- The signal number `SIGINT` of `<signal.h>`. -/
def SIGINT : Nat := 2

/-- The signal number `SIGTERM` of `<signal.h>`. -/
def SIGTERM : Nat := 15

/-- A call of the server on a collaborator, with its arguments. -/
inductive Call where
  | accept
  | send (fd : Int) (info : List Char) (len : Nat)
  | close (fd : Int)
  | setFdNonblock (fd : Int)
  | connInit (fd : Int)
  | connClose (fd : Int)
  | connRead (fd : Int)
  | connWrite (fd : Int)
  | connProcess (fd : Int)
  | timerAdd (fd : Int) (timeout : Int)
  | timerAdjust (fd : Int) (timeout : Int)
  | addFd (fd : Int) (events : Nat)
  | modFd (fd : Int) (events : Nat)
  | delFd (fd : Int)
deriving DecidableEq

/-- The members of the class `WebServer` that the handlers read; `pipefd_` is `pipefd_[0]`. -/
structure Server where
  listenFd_ : Int
  pipefd_ : Int
  listenEvent_ : Nat
  connEvent_ : Nat
  timeoutMS_ : Int
  actor_ : Int
  isClose_ : Bool
deriving DecidableEq

/-- One round of the accept loop: what `accept` returned, and `HttpConn::userCount` as the
round reads it. -/
structure Accepted where
  fd : Int
  userCount : Int
deriving DecidableEq

/-- The branch the event loop of `start()` takes for one event. -/
inductive Branch where
  | dealListen_
  | closeConn_
  | dealSignal_
  | dealRead_
  | dealWrite_
  | unexpected
deriving DecidableEq

namespace Server

/-- The method `initEventMode_(trigMode)`. -/
def initEventMode_ (s : Server) (trigMode : Int) : Server :=
  let listenEvent := EPOLLHUP
  let connEvent := EPOLLONESHOT ||| EPOLLRDHUP
  if trigMode = 0 then
    { s with listenEvent_ := listenEvent, connEvent_ := connEvent }
  else if trigMode = 1 then
    { s with listenEvent_ := listenEvent, connEvent_ := connEvent ||| EPOLLET }
  else if trigMode = 2 then
    { s with listenEvent_ := listenEvent ||| EPOLLET, connEvent_ := connEvent }
  else if trigMode = 3 then
    { s with listenEvent_ := listenEvent ||| EPOLLET, connEvent_ := connEvent ||| EPOLLET }
  else
    { s with listenEvent_ := listenEvent ||| EPOLLET, connEvent_ := connEvent ||| EPOLLET }

/-- The method `sendError_(fd, info)`: send `strlen(info)` bytes, close; the source asserts
`fd > 0`. -/
def sendError_ (fd : Int) (info : List Char) : List Call :=
  [.send fd info info.length, .close fd]

/-- The method `closeConn_(client)`. -/
def closeConn_ (fd : Int) : List Call :=
  [.delFd fd, .connClose fd]

/-- The method `addClient_(fd, addr)`; the source asserts `fd > 0`. -/
def addClient_ (s : Server) (fd : Int) : List Call :=
  [.connInit fd] ++ (if s.timeoutMS_ > 0 then [.timerAdd fd s.timeoutMS_] else [])
    ++ [.addFd fd (EPOLLIN ||| s.connEvent_), .setFdNonblock fd]

/-- The method `dealListen_()`, given the rounds of its do-while loop; when the rounds are
used up no connection is pending and `accept` on the non-blocking socket returns -1. -/
def dealListen_ (s : Server) (MAX_FD : Int) : List Accepted → List Call
  | [] => [.accept]
  | a :: rest =>
    if a.fd < 0 then [.accept]
    else if a.userCount ≥ MAX_FD then .accept :: sendError_ a.fd "Server Busy!".toList
    else
      .accept :: (addClient_ s a.fd
        ++ (if s.listenEvent_ &&& EPOLLET ≠ 0 then dealListen_ s MAX_FD rest else []))

/-- The body of the switch of `dealSignal_` for one byte: the case of SIGINT falls through
into the case of SIGTERM. -/
def signalCase (isClose : Bool) (sig : Nat) : Bool :=
  let afterInt := if sig = SIGINT then true else isClose
  if sig = SIGINT ∨ sig = SIGTERM then true else afterInt

/-- The method `dealSignal_()`, given what `recv` returned and the array `signals`. -/
def dealSignal_ (s : Server) (ret : Int) (signals : List Char) : Server :=
  if ret = 0 ∨ ret = -1 then s
  else
    { s with isClose_ :=
        (signals.take ret.toNat).foldl (fun isClose c => signalCase isClose c.toNat) s.isClose_ }

/-- The method `extentTime_(client)`. -/
def extentTime_ (s : Server) (fd : Int) : List Call :=
  if s.timeoutMS_ > 0 then [.timerAdjust fd s.timeoutMS_] else []

/-- The method `onProcess_(client)`, given what `process()` returned. -/
def onProcess_ (s : Server) (fd : Int) (processed : Bool) : List Call :=
  .connProcess fd ::
    (if processed then [.modFd fd (s.connEvent_ ||| EPOLLOUT)]
     else [.modFd fd (s.connEvent_ ||| EPOLLIN)])

/-- The method `onRead_(client)`, given what `read` returned and left in `readErrno`, and
what `process()` returns if it is called. -/
def onRead_ (s : Server) (fd : Int) (ret readErrno : Int) (processed : Bool) : List Call :=
  .connRead fd ::
    (if ret ≤ 0 ∧ readErrno ≠ EAGAIN then closeConn_ fd
     else onProcess_ s fd processed)

/-- The method `onWrite_(client)`, given what `write` returned and left in `writeErrno`,
and what `toWriteBytes()` and `isKeepAlive()` return after it. -/
def onWrite_ (s : Server) (fd : Int) (ret writeErrno : Int) (toWriteBytes : Nat)
    (isKeepAlive : Bool) : List Call :=
  .connWrite fd ::
    (if toWriteBytes = 0 then
      if isKeepAlive then [.modFd fd (s.connEvent_ ||| EPOLLIN)]
      else closeConn_ fd
    else if ret < 0 then
      if writeErrno = EAGAIN then [.modFd fd (s.connEvent_ ||| EPOLLOUT)]
      else closeConn_ fd
    else closeConn_ fd)

/-- The if / else-if chain of the event loop of `start()` for the event `(fd, events)`. -/
def dispatch (s : Server) (fd : Int) (events : Nat) : Branch :=
  if fd = s.listenFd_ then .dealListen_
  else if events &&& (EPOLLRDHUP ||| EPOLLHUP ||| EPOLLERR) ≠ 0 then .closeConn_
  else if fd = s.pipefd_ ∧ events &&& EPOLLIN ≠ 0 then .dealSignal_
  else if events &&& EPOLLIN ≠ 0 then .dealRead_
  else if events &&& EPOLLOUT ≠ 0 then .dealWrite_
  else .unexpected

end Server

/-! ## ThreadPool (`headers/threadpool.h`) -/

/-- The struct `Pool`: the closed flag and the task queue (the mutex makes every access
below one step). -/
structure Pool (Task : Type) where
  isClosed : Bool
  tasks : List Task

/-- What one pass of the loop of a worker does. -/
inductive WorkerStep (Task : Type) where
  | run (task : Task)
  | exit
  | wait

namespace ThreadPool

/-- The pool that `std::make_shared<Pool>()` builds. -/
def newPool (Task : Type) : Pool Task :=
  { isClosed := false, tasks := [] }

/-- The method `addTask(task)`: emplace at the back of the queue. -/
def addTask {Task : Type} (p : Pool Task) (task : Task) : Pool Task :=
  { p with tasks := p.tasks ++ [task] }

/-- The destructor `~ThreadPool()`: set `isClosed`. -/
def destroy {Task : Type} (p : Pool Task) : Pool Task :=
  { p with isClosed := true }

/-- One pass of the `while (true)` of a worker: pop and run the head of a non-empty queue,
else leave the loop if the pool is closed, else wait on the condition variable. -/
def workerPass {Task : Type} (p : Pool Task) : Pool Task × WorkerStep Task :=
  match p.tasks with
  | task :: rest => ({ p with tasks := rest }, .run task)
  | [] => if p.isClosed then (p, .exit) else (p, .wait)

/-- A pool with one worker: the pool, whether the worker has left its loop, and the record
of the tasks started and of the tasks submitted, in order. -/
structure OneWorker (Task : Type) where
  pool : Pool Task
  exited : Bool
  started : List Task
  submitted : List Task

/-- A step of the pool with one worker. -/
inductive PoolEvent (Task : Type) where
  | addTask (task : Task)
  | worker
  | destroy

/-- The pool `ThreadPool(1)` before any step. -/
def OneWorker.init (Task : Type) : OneWorker Task :=
  { pool := newPool Task, exited := false, started := [], submitted := [] }

/-- One step of the pool with one worker. -/
def OneWorker.step {Task : Type} (s : OneWorker Task) : PoolEvent Task → OneWorker Task
  | .addTask task => { s with pool := addTask s.pool task, submitted := s.submitted ++ [task] }
  | .destroy => { s with pool := destroy s.pool }
  | .worker =>
    if s.exited then s
    else
      match workerPass s.pool with
      | (p, .run task) => { s with pool := p, started := s.started ++ [task] }
      | (p, .exit) => { s with pool := p, exited := true }
      | (p, .wait) => { s with pool := p }

/-- The steps of a list, left to right. -/
def OneWorker.run {Task : Type} (s : OneWorker Task) (events : List (PoolEvent Task)) :
    OneWorker Task :=
  events.foldl OneWorker.step s

end ThreadPool

/-! ## HttpResponse: the mappings made and released -/

namespace HttpResponse

/-- The number of `munmap` calls of `unmapFile()`, and of `init`, which calls it under the
same test: one when a mapping is held. -/
def munmapCalls (r : HttpResponse) : Nat :=
  if r.mmFile_.isSome then 1 else 0

/-- The number of mappings that the `mmap` call of `addContent_` creates: one when the file
opens and `mmap` does not return `MAP_FAILED`. -/
def addContent_mmaps (fs : FileSystem) (r : HttpResponse) : Nat :=
  match fs.open_ (r.srcDir_ ++ r.path_) with
  | none => 0
  | some srcFd =>
    match fs.mmap srcFd r.mmFileStat_.st_size with
    | .MAP_FAILED => 0
    | .mapped _ => 1

/-- The number of mappings that `makeResponse` creates, in its call of `addContent_`. -/
def makeResponse_mmaps (fs : FileSystem) (r : HttpResponse) (buff : Buffer) : Nat :=
  addContent_mmaps fs ((errorHtml_ fs (statTarget fs r)).addStateLine_ buff).1

end HttpResponse

/-- An operation on a response object. -/
inductive ResponseOp where
  | init (srcDir path : List Char) (isKeepAlive : Bool) (code : Int)
  | makeResponse
  | unmapFile
deriving DecidableEq

/-- A response with its write buffer, and the counts of the mappings it has made and of
the `munmap` calls it has made. -/
structure Tracked where
  resp : HttpResponse
  buff : Buffer
  mmaps : Nat
  munmaps : Nat
deriving DecidableEq

namespace Tracked

/-- A fresh response, `HttpResponse()`, with an empty write buffer. -/
def fresh (initBufferSize : Nat) : Tracked :=
  { resp := HttpResponse.new, buff := Buffer.new initBufferSize, mmaps := 0, munmaps := 0 }

/-- The live mappings: the mappings made minus the `munmap` calls. -/
def live (t : Tracked) : Int := (t.mmaps : Int) - (t.munmaps : Int)

/-- One operation; `none` when `makeResponse` reads through `MAP_FAILED`. -/
def step (fs : FileSystem) (t : Tracked) : ResponseOp → Option Tracked
  | .init srcDir path isKeepAlive code =>
    some { t with resp := t.resp.init srcDir path isKeepAlive code,
                  munmaps := t.munmaps + t.resp.munmapCalls }
  | .unmapFile =>
    some { t with resp := t.resp.unmapFile, munmaps := t.munmaps + t.resp.munmapCalls }
  | .makeResponse =>
    match HttpResponse.makeResponse fs t.resp t.buff with
    | none => none
    | some (r, b) =>
      some { resp := r, buff := b,
             mmaps := t.mmaps + HttpResponse.makeResponse_mmaps fs t.resp t.buff,
             munmaps := t.munmaps }

/-- The operations of a list, left to right. -/
def run (fs : FileSystem) (t : Tracked) : List ResponseOp → Option Tracked
  | [] => some t
  | op :: ops =>
    match step fs t op with
    | none => none
    | some t1 => run fs t1 ops

end Tracked

/-- Every `makeResponse` of the list is preceded by an `init`, with only `unmapFile` calls
in between; `ready` tells whether an `init` is pending at the start. -/
def initFirst (ready : Bool) : List ResponseOp → Bool
  | [] => true
  | .init _ _ _ _ :: ops => initFirst true ops
  | .unmapFile :: ops => initFirst ready ops
  | .makeResponse :: ops => ready && initFirst false ops

/-! ## WebServer: the two dispatch modes -/

/-- A task handed to the worker pool: the bound handler and its connection. -/
inductive Task where
  | onRead_ (fd : Int)
  | onProcess_ (fd : Int)
  | onWrite_ (fd : Int)
deriving DecidableEq

/-- What the calls on a connection return in one round of work. -/
structure ConnResults where
  readRet : Int
  readErrno : Int
  processed : Bool
  writeRet : Int
  writeErrno : Int
  toWriteBytes : Nat
  isKeepAlive : Bool
deriving DecidableEq

/-- What a `deal` method does on the loop thread: its calls, and the tasks it submits. -/
structure Dealt where
  calls : List Call
  tasks : List Task
deriving DecidableEq

namespace Server

/-- The method `dealRead_(client)`. -/
def dealRead_ (s : Server) (fd : Int) (io : ConnResults) : Dealt :=
  if s.actor_ = 0 then
    { calls := extentTime_ s fd, tasks := [.onRead_ fd] }
  else
    if io.readRet ≤ 0 ∧ io.readErrno ≠ EAGAIN then
      { calls := extentTime_ s fd ++ [.connRead fd] ++ closeConn_ fd, tasks := [] }
    else
      { calls := extentTime_ s fd ++ [.connRead fd], tasks := [.onProcess_ fd] }

/-- The method `dealWrite_(client)`. -/
def dealWrite_ (s : Server) (fd : Int) (io : ConnResults) : Dealt :=
  if s.actor_ = 0 then
    { calls := extentTime_ s fd, tasks := [.onWrite_ fd] }
  else
    { calls := extentTime_ s fd
        ++ onWrite_ s fd io.writeRet io.writeErrno io.toWriteBytes io.isKeepAlive,
      tasks := [] }

/-- A worker runs a task: the bound handler is called. -/
def runTask (s : Server) (io : ConnResults) : Task → List Call
  | .onRead_ fd => onRead_ s fd io.readRet io.readErrno io.processed
  | .onProcess_ fd => onProcess_ s fd io.processed
  | .onWrite_ fd => onWrite_ s fd io.writeRet io.writeErrno io.toWriteBytes io.isKeepAlive

/-- The calls of one event: those of the loop thread, then those of the submitted tasks as
the workers run them. -/
def handled (s : Server) (io : ConnResults) (d : Dealt) : List Call :=
  d.calls ++ (d.tasks.map (runTask s io)).flatten

end Server

/-! ## ThreadPool: several workers -/

namespace ThreadPool

/-- A pool with workers named by numbers: the pool, the workers that have left their loop,
and the record of the tasks started and of the tasks submitted, in order. -/
structure Workers (Task : Type) where
  pool : Pool Task
  exited : List Nat
  started : List Task
  submitted : List Task

/-- A step of the pool: a submission, a pass of worker `i`, or the destructor. -/
inductive WorkersEvent (Task : Type) where
  | addTask (task : Task)
  | worker (i : Nat)
  | destroy

/-- The pool before any step. -/
def Workers.init (Task : Type) : Workers Task :=
  { pool := newPool Task, exited := [], started := [], submitted := [] }

/-- One step of the pool. -/
def Workers.step {Task : Type} (s : Workers Task) : WorkersEvent Task → Workers Task
  | .addTask task => { s with pool := addTask s.pool task, submitted := s.submitted ++ [task] }
  | .destroy => { s with pool := destroy s.pool }
  | .worker i =>
    if i ∈ s.exited then s
    else
      match workerPass s.pool with
      | (p, .run task) => { s with pool := p, started := s.started ++ [task] }
      | (p, .exit) => { s with pool := p, exited := i :: s.exited }
      | (p, .wait) => { s with pool := p }

/-- The steps of a list, left to right. -/
def Workers.run {Task : Type} (s : Workers Task) (events : List (WorkersEvent Task)) :
    Workers Task :=
  events.foldl Workers.step s

end ThreadPool

/-- The call registers or re-arms a connection with the mux. -/
def Call.armsWith : Call → Option Nat
  | .addFd _ events => some events
  | .modFd _ events => some events
  | _ => none

/-- The call re-arms a connection, `modFd`. -/
def Call.isRearm : Call → Bool
  | .modFd _ _ => true
  | _ => false

/-! ## The server in the words of the specification -/

/-- The suffix to MIME table of the specification, section 4.6. -/
def specSuffixTable : List (List Char × List Char) :=
  [ (".html".toList, "text/html".toList), (".xml".toList, "text/xml".toList),
    (".xhtml".toList, "application/xhtml+xml".toList), (".txt".toList, "text/plain".toList),
    (".rtf".toList, "application/rtf".toList), (".pdf".toList, "application/pdf".toList),
    (".word".toList, "application/msword".toList), (".png".toList, "image/png".toList),
    (".gif".toList, "image/gif".toList), (".jpg".toList, "image/jpeg".toList),
    (".jpeg".toList, "image/jpeg".toList), (".au".toList, "audio/basic".toList),
    (".mpeg".toList, "video/mpeg".toList), (".mpg".toList, "video/mpeg".toList),
    (".avi".toList, "video/x-msvideo".toList), (".gz".toList, "application/x-gzip".toList),
    (".tar".toList, "application/x-tar".toList), (".css".toList, "text/css ".toList),
    (".js".toList, "text/javascript ".toList) ]

/-- The MIME type of the specification for a suffix: the table value, default `text/plain`. -/
def specMime (suffix : List Char) : List Char :=
  match specSuffixTable.lookup suffix with
  | some mime => mime
  | none => "text/plain".toList

/-- The event mask carries the flag. -/
def hasFlag (events flag : Nat) : Prop := events &&& flag ≠ 0

instance (events flag : Nat) : Decidable (hasFlag events flag) := by
  unfold hasFlag; infer_instance

/-- The dispatch order of the specification, section 4.7. -/
def specBranch (listenFd sigpipeRead fd : Int) (ev : Nat) : Branch :=
  if fd = listenFd then .dealListen_
  else if hasFlag ev EPOLLRDHUP ∨ hasFlag ev EPOLLHUP ∨ hasFlag ev EPOLLERR then .closeConn_
  else if fd = sigpipeRead ∧ hasFlag ev EPOLLIN then .dealSignal_
  else if hasFlag ev EPOLLIN then .dealRead_
  else if hasFlag ev EPOLLOUT then .dealWrite_
  else .unexpected

/-- The byte is the number of a signal that shuts the server down. -/
def isShutdownSignal (c : Char) : Bool :=
  c.toNat == SIGINT || c.toNat == SIGTERM

/-- The call changes the connection map, the user count, the timer heap or the mux. -/
def Call.touchesServer : Call → Bool
  | .connInit _ => true
  | .connClose _ => true
  | .connRead _ => true
  | .connWrite _ => true
  | .connProcess _ => true
  | .timerAdd _ _ => true
  | .timerAdjust _ _ => true
  | .addFd _ _ => true
  | .modFd _ _ => true
  | .delFd _ => true
  | .accept => false
  | .send _ _ _ => false
  | .close _ => false
  | .setFdNonblock _ => false

/-- A server with listen fd 3 and signal pipe fd 4, both sides edge-triggered (mode 3). -/
def edgeServer : Server :=
  Server.initEventMode_
    { listenFd_ := 3, pipefd_ := 4, listenEvent_ := 0, connEvent_ := 0, timeoutMS_ := 60000,
      actor_ := 0, isClose_ := false } 3

/-- The same server with both sides level-triggered (mode 0). -/
def levelServer : Server :=
  Server.initEventMode_
    { listenFd_ := 3, pipefd_ := 4, listenEvent_ := 0, connEvent_ := 0, timeoutMS_ := 60000,
      actor_ := 0, isClose_ := false } 0

/-- The same server in Proactor mode (`actor_ = 1`). -/
def proactorServer : Server := { edgeServer with actor_ := 1 }

/-- A round in which the read delivers bytes and the request is complete. -/
def goodRound : ConnResults :=
  { readRet := 120, readErrno := 0, processed := true, writeRet := 300, writeErrno := 0,
    toWriteBytes := 0, isKeepAlive := true }

/-- A static root with a readable regular file that cannot be opened (the open fails, as it
does when no descriptor is free). -/
def unopenableFiles : FileSystem :=
  { stat := fun p =>
      if p = "/srv/index.html".toList then some { st_mode := 0o100644, st_size := 11 }
      else none
    open_ := fun _ => none
    mmap := fun _ _ => .MAP_FAILED }

/-! ## One connection between the loop thread and the workers

The handlers of `codes/webserver.cpp` for one connection fd, run by the loop thread and by
the workers of the pool in any order. The handlers, the `deal` methods and the callback of
the timer entry are those of the source above; the mux and the timer heap, whose sources
are not under `src/`, follow sections 4.2 and 4.3 of the specification. Time is a counter
of milliseconds; a handler that a worker runs lasts from `workerStart` to `workerFinish`,
and its calls on the mux take effect when it finishes (re-arming is its last call). -/

/-- Modelled from the spec: the mux (class `Epoller`, whose source is not under `src/`) for
one fd, section 4.2: whether the fd is registered, whether it is armed, and its event
mask. -/
structure Mux where
  registered : Bool
  armed : Bool
  events : Nat
deriving DecidableEq

namespace Mux

/-- Modelled from the spec: `add(fd, events)` of the mux (`Epoller`, not under `src/`)
registers the fd with the mask and arms it. -/
def add (_ : Mux) (events : Nat) : Mux :=
  { registered := true, armed := true, events := events }

/-- Modelled from the spec: `mod(fd, events)` of the mux (`Epoller`, not under `src/`)
re-arms a registered fd with the mask; on an fd that is not registered it changes
nothing. -/
def mod (m : Mux) (events : Nat) : Mux :=
  if m.registered then { registered := true, armed := true, events := events } else m

/-- Modelled from the spec: `del(fd)` of the mux (`Epoller`, not under `src/`) removes the
fd. -/
def del (_ : Mux) : Mux :=
  { registered := false, armed := false, events := 0 }

/-- Modelled from the spec: the mux (`Epoller`, not under `src/`) reports an event of the
fd; with the arming bit `one_shot` the fd is then disarmed until it is re-armed with
`mod`. -/
def fire (m : Mux) : Mux :=
  if m.events &&& EPOLLONESHOT ≠ 0 then { m with armed := false } else m

/-- Modelled from the spec: the mux (`Epoller`, not under `src/`) reports the flag for the
fd only while the fd is armed and its mask carries the flag. -/
def reports (m : Mux) (flag : Nat) : Bool :=
  m.armed && decide (m.events &&& flag ≠ 0)

end Mux

/-- Modelled from the spec: the timer heap (class `HeapTimer`, whose source is not under
`src/`) for one fd, section 4.3: the deadline of the entry of the fd, if it has one. -/
structure Timer where
  deadline : Option Nat
deriving DecidableEq

namespace Timer

/-- Modelled from the spec: `add(fd, timeout_ms, on_expire)` of the timer heap (`HeapTimer`,
not under `src/`) inserts an entry with the deadline `now + timeout_ms`. -/
def add (_ : Timer) (now timeout : Nat) : Timer :=
  { deadline := some (now + timeout) }

/-- Modelled from the spec: `adjust(fd, timeout_ms)` of the timer heap (`HeapTimer`, not
under `src/`) replaces the deadline of the entry of the fd with `now + timeout_ms`. -/
def adjust (t : Timer) (now timeout : Nat) : Timer :=
  { deadline := t.deadline.map (fun _ => now + timeout) }

/-- Modelled from the spec: the entry of the fd in the timer heap (`HeapTimer`, not under
`src/`) is expired, its deadline is not after `now`. -/
def expired (t : Timer) (now : Nat) : Bool :=
  match t.deadline with
  | some d => decide (d ≤ now)
  | none => false

/-- Modelled from the spec: `tick()` of the timer heap (`HeapTimer`, not under `src/`) pops
the expired entry; the caller then invokes `on_expire`. -/
def pop (_ : Timer) : Timer :=
  { deadline := none }

end Timer

/-- The call is made only inside one of the handlers `onRead_`, `onProcess_`, `onWrite_`
and `closeConn_`. -/
def Call.ofHandler : Call → Bool
  | .connClose _ => true
  | .connWrite _ => true
  | .connProcess _ => true
  | .modFd _ _ => true
  | .delFd _ => true
  | _ => false

/-- One connection of a running server: the clock of the loop in milliseconds, the timer
entry and the mux entry of the fd, the tasks for the fd in the queue of the pool, the
workers that are inside a handler for the fd, and whether two threads have been inside a
handler for the fd at the same time. -/
structure ConnSystem where
  server : Server
  fd : Int
  now : Nat
  timer : Timer
  mux : Mux
  queue : List Task
  inHandler : List (Nat × Task)
  overlap : Bool
deriving DecidableEq

/-- What happens next to the connection: time passes; the loop thread reaches
`timer_->getNextTick()`; the mux reports the fd to the loop thread as readable, as
writable, or as hung up; worker `i` takes the task at the head of the queue and enters its
handler; worker `i` returns from its handler. -/
inductive ConnEvent where
  | elapse (ms : Nat)
  | tick
  | readable (io : ConnResults)
  | writable (io : ConnResults)
  | hangup
  | workerStart (i : Nat)
  | workerFinish (i : Nat) (io : ConnResults)
deriving DecidableEq

namespace ConnSystem

/-- The effect of one call of the server on the timer entry and the mux entry of the fd. -/
def apply (s : ConnSystem) : Call → ConnSystem
  | .timerAdd _ timeout => { s with timer := s.timer.add s.now timeout.toNat }
  | .timerAdjust _ timeout => { s with timer := s.timer.adjust s.now timeout.toNat }
  | .addFd _ events => { s with mux := s.mux.add events }
  | .modFd _ events => { s with mux := s.mux.mod events }
  | .delFd _ => { s with mux := s.mux.del }
  | _ => s

/-- The effect of the calls of a list, left to right. -/
def applyAll (s : ConnSystem) (calls : List Call) : ConnSystem :=
  calls.foldl apply s

/-- The loop thread makes the calls; when they are those of a handler and a worker is
inside a handler for the fd, two threads are inside a handler at the same time. -/
def onLoop (s : ConnSystem) (calls : List Call) : ConnSystem :=
  applyAll { s with overlap := s.overlap || (calls.any Call.ofHandler && !s.inHandler.isEmpty) }
    calls

/-- The connection after `addClient_(fd, addr)` on the loop thread, at time 0. -/
def accepted (server : Server) (fd : Int) : ConnSystem :=
  applyAll
    { server := server, fd := fd, now := 0, timer := { deadline := none },
      mux := { registered := false, armed := false, events := 0 }, queue := [],
      inHandler := [], overlap := false }
    (Server.addClient_ server fd)

/-- One step of the connection. On `tick` the loop of `start()` calls `getNextTick()` when
`timeoutMS_ > 0`, and an expired entry is popped and its callback, the `closeConn_` bound
in `addClient_`, runs on the loop thread. A report of the mux goes through the chain of
`start()`: `closeConn_`, `dealRead_` or `dealWrite_` on the loop thread, and the tasks
submitted join the queue. -/
def step (s : ConnSystem) : ConnEvent → ConnSystem
  | .elapse ms => { s with now := s.now + ms }
  | .tick =>
    if s.server.timeoutMS_ > 0 ∧ s.timer.expired s.now = true then
      onLoop { s with timer := s.timer.pop } (Server.closeConn_ s.fd)
    else s
  | .hangup =>
    if s.mux.armed then onLoop { s with mux := s.mux.fire } (Server.closeConn_ s.fd)
    else s
  | .readable io =>
    if s.mux.reports EPOLLIN then
      let d := Server.dealRead_ s.server s.fd io
      let s1 := onLoop { s with mux := s.mux.fire } d.calls
      { s1 with queue := s1.queue ++ d.tasks }
    else s
  | .writable io =>
    if s.mux.reports EPOLLOUT then
      let d := Server.dealWrite_ s.server s.fd io
      let s1 := onLoop { s with mux := s.mux.fire } d.calls
      { s1 with queue := s1.queue ++ d.tasks }
    else s
  | .workerStart i =>
    match s.queue with
    | [] => s
    | task :: rest =>
      if (s.inHandler.lookup i).isSome then s
      else
        { s with
          queue := rest
          overlap := s.overlap || !s.inHandler.isEmpty
          inHandler := (i, task) :: s.inHandler }
  | .workerFinish i io =>
    match s.inHandler.lookup i with
    | none => s
    | some task =>
      applyAll { s with inHandler := s.inHandler.filter (fun p => p.1 != i) }
        (Server.runTask s.server io task)

/-- The steps of a list, left to right. -/
def run (s : ConnSystem) (events : List ConnEvent) : ConnSystem :=
  events.foldl step s

/-- At most one thread can be inside a handler for the fd: no two threads have been so at the
same time, the tasks queued and the workers inside a handler are at most one together, and
when the fd is armed there is none and the arming is one-shot. -/
def Exclusive (s : ConnSystem) : Prop :=
  s.overlap = false ∧ s.queue.length + s.inHandler.length ≤ 1 ∧
  (s.mux.armed = true →
    s.queue = [] ∧ s.inHandler = [] ∧ s.mux.events &&& EPOLLONESHOT ≠ 0)

end ConnSystem

/-- The same server as `edgeServer` without timeouts (`timeoutMS_ = 0`). -/
def untimedServer : Server := { edgeServer with timeoutMS_ := 0 }

/-- A connection is read by worker 0 while its timeout of 60000 ms runs out: the mux reports
fd 7 as readable, worker 0 enters `onRead_`, 60000 ms pass, the loop calls
`getNextTick()`. -/
def slowRead : List ConnEvent :=
  [.readable goodRound, .workerStart 0, .elapse 60000, .tick]

/-- A keep-alive connection served twice through reading, processing and writing. -/
def twoRequests : List ConnEvent :=
  [.readable goodRound, .workerStart 0, .workerFinish 0 goodRound,
   .writable goodRound, .workerStart 1, .workerFinish 1 goodRound,
   .readable goodRound, .workerStart 1, .workerFinish 1 goodRound,
   .writable goodRound, .workerStart 0, .workerFinish 0 goodRound]

/-! ## The response text in the words of the specification -/

/-- The status line of the specification: `HTTP/1.1 <code> <reason>\r\n`. -/
def statusLine (code : Int) (reason : List Char) : List Char :=
  "HTTP/1.1 ".toList ++ to_string code ++ " ".toList ++ reason ++ "\r\n".toList

/-- The connection header of the specification. -/
def connectionHeader (keepAlive : Bool) : List Char :=
  if keepAlive then "Connection: keep-alive\r\nkeep-alive: max=6, timeout=120\r\n".toList
  else "Connection: close\r\n".toList

/-- The header `Content-type: <mime>\r\n` of the specification. -/
def contentTypeHeader (mime : List Char) : List Char :=
  "Content-type: ".toList ++ mime ++ "\r\n".toList

/-- The header `Content-length: <n>\r\n\r\n` of the specification, closing the head. -/
def contentLengthHeader (n : Nat) : List Char :=
  "Content-length: ".toList ++ to_string n ++ "\r\n\r\n".toList

/-- The inline HTML error page, holding `<code> : <reason>`. -/
def inlineErrorPage (code : Int) (reason : List Char) : List Char :=
  "<html><title>Error</title><body bgcolor=\"ffffff\">".toList ++ to_string code
    ++ " : ".toList ++ reason
    ++ "\n<p>File Not Found!</p><hr><em>WebServer</em></body></html>".toList

/-- The status rule of the specification: 404 when stat fails or the target is a directory,
else 403 when the world-read bit is unset, else 200 when no code is preset, else the preset
code. -/
def specStatus (target : Option FileStat) (preset : Int) : Int :=
  match target with
  | none => 404
  | some st =>
    if S_ISDIR st.st_mode then 404
    else if st.st_mode &&& S_IROTH = 0 then 403
    else if preset = -1 then 200
    else preset

/-! ## Concrete inputs -/

namespace Buffer

/-- A run that appends in place, retrieves, reads, fails a read, grows and compacts. -/
def cursorOps : List Op :=
  [ .append "hello".toList, .retrieve 2, .readFd (.bytes "abc".toList), .readFd (.error 11),
    .append "0123456789".toList, .retrieve 3, .append "xy".toList ]

/-- The buffer that `cursorOps` reaches from `Buffer(4)`. -/
def cursorReached : Buffer :=
  { buffer_ := "abc0123456789xy9\x00".toList, readPos_ := 0, writePos_ := 15 }

/-- A buffer of capacity 10 holding two readable bytes at `[2, 4)`: six bytes are writable. -/
def roomyBuffer : Buffer :=
  { buffer_ := "..ab......".toList, readPos_ := 2, writePos_ := 4 }

/-- A buffer of capacity 10 holding two readable bytes at `[6, 8)`: two bytes are writable. -/
def tightBuffer : Buffer :=
  { buffer_ := "......ab..".toList, readPos_ := 6, writePos_ := 8 }

end Buffer

/-- Four bytes 0xFF followed by text: a file whose first `int` is -1. -/
def onesThenText (text : List Char) : List Char :=
  ['\xff', '\xff', '\xff', '\xff'] ++ text

/-- A static root `/srv` (a directory) with a page, a 404 page, a binary file that starts
with four bytes 0xFF, an empty file (mmap of length 0 fails) and an unreadable file. -/
def siteFiles : FileSystem :=
  { stat := fun p =>
      if p = "/srv".toList then some { st_mode := 0o040755, st_size := 4096 }
      else if p = "/srv/index.html".toList then some { st_mode := 0o100644, st_size := 11 }
      else if p = "/srv/404.html".toList then some { st_mode := 0o100644, st_size := 12 }
      else if p = "/srv/blob.bin".toList then some { st_mode := 0o100644, st_size := 8 }
      else if p = "/srv/empty.txt".toList then some { st_mode := 0o100644, st_size := 0 }
      else if p = "/srv/secret.txt".toList then some { st_mode := 0o100640, st_size := 6 }
      else none
    open_ := fun p =>
      if p = "/srv/index.html".toList then some 3
      else if p = "/srv/404.html".toList then some 4
      else if p = "/srv/blob.bin".toList then some 5
      else if p = "/srv/empty.txt".toList then some 6
      else none
    mmap := fun fd len =>
      if fd = 3 ∧ len = 11 then .mapped "<h1>hi</h1>".toList
      else if fd = 4 ∧ len = 12 then .mapped "<h1>404</h1>".toList
      else if fd = 5 ∧ len = 8 then .mapped (onesThenText "data".toList)
      else .MAP_FAILED }

/-- A static root whose only file is a 404 page that starts with four bytes 0xFF. -/
def onesPageFiles : FileSystem :=
  { stat := fun p =>
      if p = "/srv/404.html".toList then some { st_mode := 0o100644, st_size := 16 }
      else none
    open_ := fun p => if p = "/srv/404.html".toList then some 4 else none
    mmap := fun fd len =>
      if fd = 4 ∧ len = 16 then .mapped (onesThenText "<h1>404</h1>".toList)
      else .MAP_FAILED }

/-- A static root in which nothing exists: every stat and every open fails. -/
def noFiles : FileSystem :=
  { stat := fun _ => none
    open_ := fun _ => none
    mmap := fun _ _ => .MAP_FAILED }

/-- The response as `init(srcDir, path, isKeepAlive, code)` leaves a fresh object. -/
def request (srcDir path : String) (isKeepAlive : Bool) (code : Int) : HttpResponse :=
  HttpResponse.new.init srcDir.toList path.toList isKeepAlive code

/-- The bytes a response left readable in the write buffer. -/
def written (out : Option (HttpResponse × Buffer)) : Option (List Char) :=
  out.map (fun x => x.2.readableData)

/-- The mapping a response holds, `file()`. -/
def held (out : Option (HttpResponse × Buffer)) : Option (Option (List Char)) :=
  out.map (fun x => x.1.file)

/-! ## Buffer: lemmas -/

namespace Buffer

theorem length_copyInto (v : List Char) (pos : Nat) (src : List Char)
    (h : pos + src.length ≤ v.length) : (copyInto v pos src).length = v.length := by
  simp only [copyInto, List.length_append, List.length_take, List.length_drop]
  omega

theorem length_resize (v : List Char) (n : Nat) : (resize v n).length = n := by
  simp only [resize, List.length_append, List.length_take, List.length_replicate]
  omega

/-- Reading `[r, w + |src|)` after a copy at `w` gives the old `[r, w)` followed by `src`. -/
theorem slice_copyInto (v : List Char) (r w : Nat) (src : List Char)
    (hrw : r ≤ w) (hw : w ≤ v.length) :
    ((copyInto v w src).drop r).take (w + src.length - r) = (v.drop r).take (w - r) ++ src := by
  have h1 : (v.take w).length = w := by simp [hw]
  have h2 : ((v.take w).drop r).length = w - r := by simp [h1]
  have h3 : (v.take w).drop r = (v.drop r).take (w - r) := by
    rw [List.drop_take]
  unfold copyInto
  rw [List.append_assoc, List.drop_append_of_le_length (by omega), ← List.append_assoc,
    List.take_append_of_le_length (by simp [h2]; omega)]
  rw [show w + src.length - r = ((v.take w).drop r ++ src).length by simp [h2]; omega,
    List.take_length, h3]

/-- Growing the vector keeps every slice below its old size. -/
theorem slice_resize (v : List Char) (n r k : Nat) (hn : v.length ≤ n) (hk : r + k ≤ v.length) :
    ((resize v n).drop r).take k = (v.drop r).take k := by
  unfold resize
  rw [List.take_of_length_le hn, List.drop_append_of_le_length (by omega),
    List.take_append_of_le_length (by simp; omega)]

/-- Writing a copy (at `pos + |src| <= size`) keeps the invariant once the cursor moves. -/
theorem inv_write (b : Buffer) (src : List Char) (h : b.Inv)
    (hfit : src.length ≤ b.writableBytes) :
    (hasWritten { b with buffer_ := copyInto b.buffer_ b.writePos_ src } src.length).Inv := by
  obtain ⟨h1, h2⟩ := h
  unfold writableBytes at hfit
  have hl := length_copyInto b.buffer_ b.writePos_ src (by omega)
  simp only [Inv, hasWritten, hl]
  omega

/-- Writing a copy at the write cursor appends it to the readable bytes. -/
theorem readable_write (b : Buffer) (src : List Char) (h : b.Inv) :
    (hasWritten { b with buffer_ := copyInto b.buffer_ b.writePos_ src } src.length).readableData
      = b.readableData ++ src := by
  obtain ⟨h1, h2⟩ := h
  simp only [readableData, readableBytes, hasWritten]
  exact slice_copyInto b.buffer_ b.readPos_ b.writePos_ src h1 h2

/-- Compact-or-grow keeps the invariant and the readable bytes, and makes room. -/
theorem ensureWritable_spec (b : Buffer) (n : Nat) (h : b.Inv) :
    (b.ensureWritable n).Inv ∧ (b.ensureWritable n).readableData = b.readableData
      ∧ n ≤ (b.ensureWritable n).writableBytes := by
  obtain ⟨h1, h2⟩ := h
  unfold ensureWritable
  split
  · rename_i hlt
    unfold makeSpace_
    split
    · rename_i hgrow
      simp only [writableBytes, prependableBytes] at hlt hgrow
      refine ⟨?_, ?_, ?_⟩
      · simp only [Inv, length_resize]; omega
      · simp only [readableData, readableBytes]
        exact slice_resize _ _ _ _ (by omega) (by omega)
      · simp only [writableBytes, length_resize]; omega
    · rename_i hfit
      simp only [writableBytes, prependableBytes] at hlt hfit
      have hlen : ((b.buffer_.drop b.readPos_).take (b.writePos_ - b.readPos_)).length
          = b.writePos_ - b.readPos_ := by
        simp only [List.length_take, List.length_drop]; omega
      have hl := length_copyInto b.buffer_ 0
        ((b.buffer_.drop b.readPos_).take (b.writePos_ - b.readPos_)) (by rw [hlen]; omega)
      refine ⟨?_, ?_, ?_⟩
      · simp only [Inv, hl, readableBytes]; omega
      · simp only [readableData, readableBytes, List.drop_zero, Nat.zero_add, Nat.sub_zero]
        simp only [copyInto, List.take_zero, List.nil_append, Nat.zero_add]
        rw [List.take_append_of_le_length (by rw [hlen]),
          List.take_of_length_le (by rw [hlen])]
      · simp only [writableBytes, hl, readableBytes]; omega
  · rename_i hge
    exact ⟨⟨h1, h2⟩, rfl, by omega⟩

theorem append_inv (b : Buffer) (str : List Char) (h : b.Inv) : (b.append str).Inv := by
  obtain ⟨hi, _, hw⟩ := ensureWritable_spec b str.length h
  exact inv_write _ str hi hw

theorem append_readable (b : Buffer) (str : List Char) (h : b.Inv) :
    (b.append str).readableData = b.readableData ++ str := by
  obtain ⟨hi, hr, _⟩ := ensureWritable_spec b str.length h
  unfold append
  rw [readable_write _ str hi, hr]

/-- The state `readFd` hands to `append` when readv filled the whole writable tail. -/
theorem readFd_full (b : Buffer) (chunk : List Char) (h : b.Inv)
    (hlen : chunk.length = b.writableBytes) :
    let filled : Buffer := { b with buffer_ := copyInto b.buffer_ b.writePos_ chunk }
    let full : Buffer := { filled with writePos_ := filled.buffer_.length }
    full.Inv ∧ full.readableData = b.readableData ++ chunk := by
  obtain ⟨h1, h2⟩ := h
  unfold writableBytes at hlen
  have hl := length_copyInto b.buffer_ b.writePos_ chunk (by omega)
  refine ⟨?_, ?_⟩
  · simp only [Inv, hl]; omega
  · simp only [readableData, readableBytes, hl]
    rw [show b.buffer_.length = b.writePos_ + chunk.length by omega]
    exact slice_copyInto b.buffer_ b.readPos_ b.writePos_ chunk h1 h2

/-- The overflow slice that `readFd` appends is what readv left in the stack array. -/
theorem readFd_overflow (data : List Char) (writable : Nat)
    (hk : data.length ≤ writable + STACK_BUFF) :
    ((data.drop writable).take STACK_BUFF).take (data.length - writable) = data.drop writable := by
  rw [List.take_of_length_le (by simp only [List.length_take, List.length_drop]; omega),
    List.take_of_length_le (by simp only [List.length_drop]; omega)]

theorem readFd_spec (b : Buffer) (data : List Char) (h : b.Inv)
    (hk : data.length ≤ b.writableBytes + STACK_BUFF) :
    (b.readFd (.bytes data)).buf.Inv ∧ (b.readFd (.bytes data)).len = data.length
      ∧ (b.readFd (.bytes data)).buf.readableData = b.readableData ++ data := by
  unfold readFd
  simp only
  split
  · rename_i hle
    rw [List.take_of_length_le hle]
    exact ⟨inv_write b data h hle, rfl, readable_write b data h⟩
  · rename_i hgt
    have hchunk : (data.take b.writableBytes).length = b.writableBytes := by
      simp only [List.length_take]; omega
    obtain ⟨hi, hr⟩ := readFd_full b (data.take b.writableBytes) h hchunk
    simp only at hi hr
    rw [readFd_overflow data b.writableBytes hk]
    refine ⟨append_inv _ _ hi, rfl, ?_⟩
    rw [append_readable _ _ hi, hr, List.append_assoc, List.take_append_drop]

theorem step_inv (b : Buffer) (op : Op) (h : b.Inv) (hadm : op.admissible b = true) :
    (b.step op).Inv := by
  cases op with
  | append bytes => exact append_inv b bytes h
  | retrieve n =>
    simp only [Op.admissible, decide_eq_true_eq, readableBytes] at hadm
    obtain ⟨h1, h2⟩ := h
    simp only [step, retrieve, Inv]
    omega
  | readFd rv =>
    cases rv with
    | error errno => exact h
    | bytes data =>
      simp only [Op.admissible, decide_eq_true_eq] at hadm
      exact (readFd_spec b data h hadm).1

theorem run_inv (ops : List Op) : ∀ (b b' : Buffer), b.Inv → b.run ops = some b' → b'.Inv := by
  induction ops with
  | nil =>
    intro b b' h hrun
    simp only [run, Option.some.injEq] at hrun
    exact hrun ▸ h
  | cons op ops ih =>
    intro b b' h hrun
    simp only [run] at hrun
    split at hrun
    · rename_i hadm
      exact ih _ _ (step_inv b op h hadm) hrun
    · exact absurd hrun (by intro hc; cases hc)

theorem new_inv (n : Nat) : (new n).Inv := by
  simp [Inv, new]

end Buffer

/-! ## Buffer: the cursor law, scatter read, compact-or-grow, append -/

namespace Buffer

/-- C1: every buffer reached from the constructor by a finite sequence of `append(bytes)`,
`retrieve(n)` with `n <= readableBytes()` and `readFd` (readv failing, or delivering at most
`writableBytes() + 65535` bytes) has `0 <= readPos_ <= writePos_ <= buffer_.size()` and
`readableBytes() + writableBytes() + prependableBytes() == buffer_.size()`. -/
theorem cursor_law (initBufferSize : Nat) (ops : List Op) (b : Buffer)
    (h : (new initBufferSize).run ops = some b) :
    0 ≤ b.readPos_ ∧ b.readPos_ ≤ b.writePos_ ∧ b.writePos_ ≤ b.buffer_.length ∧
      b.readableBytes + b.writableBytes + b.prependableBytes = b.buffer_.length := by
  obtain ⟨h1, h2⟩ := run_inv ops _ _ (new_inv initBufferSize) h
  refine ⟨Nat.zero_le _, h1, h2, ?_⟩
  simp only [readableBytes, writableBytes, prependableBytes]
  omega

theorem cursor_law_witness :
    (new 4).run cursorOps = some cursorReached ∧
      (0 ≤ cursorReached.readPos_ ∧ cursorReached.readPos_ ≤ cursorReached.writePos_ ∧
        cursorReached.writePos_ ≤ cursorReached.buffer_.length ∧
        cursorReached.readableBytes + cursorReached.writableBytes
          + cursorReached.prependableBytes = cursorReached.buffer_.length) :=
  ⟨by decide, cursor_law 4 cursorOps cursorReached (by decide)⟩

/-- C2: on a buffer with the cursor invariant, when readv delivers `k` bytes with
`k <= writableBytes() + 65535` (the writable tail filled first, the stack array next),
`readFd` returns `k` and the readable region is the old readable bytes followed by exactly
those `k` bytes in order. -/
theorem readFd_scatter (b : Buffer) (data : List Char) (h : b.Inv)
    (hk : data.length ≤ b.writableBytes + STACK_BUFF) :
    (b.readFd (.bytes data)).len = data.length ∧
      (b.readFd (.bytes data)).buf.readableData = b.readableData ++ data :=
  (readFd_spec b data h hk).2

theorem readFd_scatter_witness :
    tightBuffer.Inv ∧ "hello".toList.length ≤ tightBuffer.writableBytes + STACK_BUFF ∧
      ((tightBuffer.readFd (.bytes "hello".toList)).len = "hello".toList.length ∧
        (tightBuffer.readFd (.bytes "hello".toList)).buf.readableData
          = tightBuffer.readableData ++ "hello".toList) :=
  ⟨by decide, by decide, readFd_scatter tightBuffer "hello".toList (by decide) (by decide)⟩

/-- C3, as the source has it: the claim lets the buffer compact whenever
`prependableBytes() + writableBytes() >= n`, but `ensureWritable` leaves a buffer with
`writableBytes() >= n` untouched; here six bytes are writable, three are asked for, and
`readPos_` stays 2. -/
theorem ensureWritable_compacts_counterexample :
    roomyBuffer.Inv ∧ 3 ≤ roomyBuffer.prependableBytes + roomyBuffer.writableBytes ∧
      (roomyBuffer.ensureWritable 3).readPos_ = 2 ∧
      ¬ ((roomyBuffer.ensureWritable 3).readPos_ = 0 ∧
          (roomyBuffer.ensureWritable 3).writePos_ = roomyBuffer.readableBytes) := by
  decide

/-- C3, amended: on a buffer with the cursor invariant, after `ensureWritable(n)`
`writableBytes() >= n`; when `prependableBytes() + writableBytes() >= n` held the capacity is
unchanged: the buffer is untouched if `writableBytes() >= n` held, and otherwise compacted to
`readPos_ = 0`, `writePos_ =` the old readable count; when it did not hold the capacity becomes
exactly the old `writePos_ + n + 1`. -/
theorem ensureWritable_compact_or_grow (b : Buffer) (n : Nat) (h : b.Inv) :
    n ≤ (b.ensureWritable n).writableBytes ∧
      (n ≤ b.prependableBytes + b.writableBytes →
        (b.ensureWritable n).buffer_.length = b.buffer_.length) ∧
      (n ≤ b.writableBytes → b.ensureWritable n = b) ∧
      (b.writableBytes < n → n ≤ b.prependableBytes + b.writableBytes →
        (b.ensureWritable n).readPos_ = 0 ∧
          (b.ensureWritable n).writePos_ = b.readableBytes) ∧
      (b.prependableBytes + b.writableBytes < n →
        (b.ensureWritable n).buffer_.length = b.writePos_ + n + 1) := by
  obtain ⟨h1, h2⟩ := h
  have hmove : ((b.buffer_.drop b.readPos_).take (b.writePos_ - b.readPos_)).length
      = b.writePos_ - b.readPos_ := by
    simp only [List.length_take, List.length_drop]; omega
  have hl := length_copyInto b.buffer_ 0
    ((b.buffer_.drop b.readPos_).take (b.writePos_ - b.readPos_)) (by rw [hmove]; omega)
  refine ⟨(ensureWritable_spec b n ⟨h1, h2⟩).2.2, ?_, ?_, ?_, ?_⟩
  · intro hfit
    unfold ensureWritable makeSpace_
    split
    · rw [if_neg (by omega)]; exact hl
    · rfl
  · intro hroom
    unfold ensureWritable
    rw [if_neg (by omega)]
  · intro hlt hfit
    unfold ensureWritable makeSpace_
    rw [if_pos hlt, if_neg (by omega)]
    exact ⟨rfl, Nat.zero_add _⟩
  · intro hgrow
    unfold ensureWritable makeSpace_
    rw [if_pos (by omega), if_pos (by omega)]
    exact length_resize _ _

theorem ensureWritable_compact_or_grow_witness :
    tightBuffer.Inv ∧ tightBuffer.writableBytes < 5 ∧
      5 ≤ tightBuffer.prependableBytes + tightBuffer.writableBytes ∧
      5 ≤ (tightBuffer.ensureWritable 5).writableBytes ∧
      (tightBuffer.ensureWritable 5).buffer_.length = tightBuffer.buffer_.length ∧
      (tightBuffer.ensureWritable 5).readPos_ = 0 ∧
      (tightBuffer.ensureWritable 5).writePos_ = tightBuffer.readableBytes :=
  have hw := ensureWritable_compact_or_grow tightBuffer 5 (by decide)
  ⟨by decide, by decide, by decide, hw.1, hw.2.1 (by decide),
    hw.2.2.2.1 (by decide) (by decide)⟩

/-- C4: on a buffer with the cursor invariant, after `append(b)` the readable region
`[readPos_, writePos_)` is the readable region before the call followed by `b`, whether the
call wrote in place, compacted or grew the buffer. -/
theorem append_appends (b : Buffer) (str : List Char) (h : b.Inv) :
    (b.append str).readableData = b.readableData ++ str :=
  append_readable b str h

theorem append_appends_witness :
    tightBuffer.Inv ∧
      (tightBuffer.append "hello".toList).readableData = tightBuffer.readableData ++ "hello".toList :=
  ⟨by decide, append_appends tightBuffer "hello".toList (by decide)⟩

end Buffer

/-! ## HttpResponse: lemmas -/

namespace HttpResponse

theorem init_eq (r : HttpResponse) (srcDir path : List Char) (ka : Bool) (code : Int) :
    r.init srcDir path ka code =
      { code_ := code, path_ := path, srcDir_ := srcDir, isKeepAlive_ := ka, mmFile_ := none,
        mmFileStat_ := { st_mode := 0, st_size := 0 } } := by
  unfold init
  split <;> rfl

theorem statTarget_frame (fs : FileSystem) (r : HttpResponse) :
    (statTarget fs r).path_ = r.path_ ∧ (statTarget fs r).srcDir_ = r.srcDir_ ∧
      (statTarget fs r).isKeepAlive_ = r.isKeepAlive_ ∧ (statTarget fs r).mmFile_ = r.mmFile_ := by
  unfold statTarget
  split
  · exact ⟨rfl, rfl, rfl, rfl⟩
  · simp only
    split_ifs <;> exact ⟨rfl, rfl, rfl, rfl⟩

theorem statTarget_code (fs : FileSystem) (r : HttpResponse) :
    (statTarget fs r).code_ = specStatus (fs.stat (r.srcDir_ ++ r.path_)) r.code_ := by
  unfold statTarget specStatus
  cases fs.stat (r.srcDir_ ++ r.path_) with
  | none => rfl
  | some st =>
    simp only
    split_ifs <;> rfl

theorem errorHtml_frame (fs : FileSystem) (r : HttpResponse) :
    (errorHtml_ fs r).code_ = r.code_ ∧ (errorHtml_ fs r).srcDir_ = r.srcDir_ ∧
      (errorHtml_ fs r).isKeepAlive_ = r.isKeepAlive_ ∧ (errorHtml_ fs r).mmFile_ = r.mmFile_ := by
  unfold errorHtml_
  split
  · simp only
    split <;> exact ⟨rfl, rfl, rfl, rfl⟩
  · exact ⟨rfl, rfl, rfl, rfl⟩

theorem errorBody_eq (code : Int) (reason : List Char) (h : CODE_STATUS.lookup code = some reason) :
    errorBody code "File Not Found!".toList = inlineErrorPage code reason := by
  unfold errorBody inlineErrorPage
  simp only [h, List.append_assoc]
  rfl

theorem addStateLine_spec (r : HttpResponse) (buff : Buffer) (h : buff.Inv) :
    ∃ reason, CODE_STATUS.lookup (r.addStateLine_ buff).1.code_ = some reason ∧
      (r.addStateLine_ buff).1 = { r with code_ := (r.addStateLine_ buff).1.code_ } ∧
      (r.addStateLine_ buff).2.Inv ∧
      (r.addStateLine_ buff).2.readableData
        = buff.readableData ++ statusLine (r.addStateLine_ buff).1.code_ reason := by
  unfold addStateLine_
  cases hl : CODE_STATUS.lookup r.code_ with
  | some status =>
    exact ⟨status, hl, rfl, Buffer.append_inv _ _ h, Buffer.append_readable _ _ h⟩
  | none =>
    exact ⟨"Bad Request".toList, rfl, rfl, Buffer.append_inv _ _ h, Buffer.append_readable _ _ h⟩

/-- A code of the reason table passes `addStateLine_` unchanged. -/
theorem addStateLine_known (r : HttpResponse) (buff : Buffer) (reason : List Char)
    (hl : CODE_STATUS.lookup r.code_ = some reason) : (r.addStateLine_ buff).1 = r := by
  unfold addStateLine_
  rw [hl]

theorem addHeader_spec (r : HttpResponse) (buff : Buffer) (h : buff.Inv) :
    (r.addHeader_ buff).Inv ∧
      (r.addHeader_ buff).readableData
        = buff.readableData ++ (connectionHeader r.isKeepAlive_ ++ contentTypeHeader r.getFileType_) := by
  have h1 := Buffer.append_inv buff "Connection: ".toList h
  have e1 := Buffer.append_readable buff "Connection: ".toList h
  unfold addHeader_ connectionHeader contentTypeHeader
  cases r.isKeepAlive_ with
  | true =>
    have h2 := Buffer.append_inv _ "keep-alive\r\n".toList h1
    have e2 := Buffer.append_readable _ "keep-alive\r\n".toList h1
    have h3 := Buffer.append_inv _ "keep-alive: max=6, timeout=120\r\n".toList h2
    have e3 := Buffer.append_readable _ "keep-alive: max=6, timeout=120\r\n".toList h2
    refine ⟨Buffer.append_inv _ _ h3, ?_⟩
    simp only [if_true]
    rw [Buffer.append_readable _ _ h3, e3, e2, e1]
    simp only [List.append_assoc]
    rfl
  | false =>
    have h2 := Buffer.append_inv _ "close\r\n".toList h1
    have e2 := Buffer.append_readable _ "close\r\n".toList h1
    refine ⟨Buffer.append_inv _ _ h2, ?_⟩
    simp only [Bool.false_eq_true, if_false]
    rw [Buffer.append_readable _ _ h2, e2, e1]
    simp only [List.append_assoc]
    rfl

theorem errorContent_spec (r : HttpResponse) (buff : Buffer) (message : List Char)
    (h : buff.Inv) :
    (r.errorContent buff message).Inv ∧
      (r.errorContent buff message).readableData
        = buff.readableData ++ (contentLengthHeader (errorBody r.code_ message).length
            ++ errorBody r.code_ message) := by
  unfold errorContent contentLengthHeader
  have h1 := Buffer.append_inv buff ("Content-length: ".toList
    ++ to_string (errorBody r.code_ message).length ++ "\r\n\r\n".toList) h
  refine ⟨Buffer.append_inv _ _ h1, ?_⟩
  simp only
  rw [Buffer.append_readable _ _ h1, Buffer.append_readable _ _ h, List.append_assoc]

/-- The state and the buffer that `makeResponse` hands to `addContent_`: the retargeted
response with a code of the reason table, and the status line and headers written. -/
theorem makeResponse_head (fs : FileSystem) (r : HttpResponse) (buff : Buffer) (h : buff.Inv) :
    ∃ c reason b4, CODE_STATUS.lookup c = some reason ∧
      (∀ known, CODE_STATUS.lookup (errorHtml_ fs (statTarget fs r)).code_ = some known →
        c = (errorHtml_ fs (statTarget fs r)).code_) ∧
      makeResponse fs r buff
        = addContent_ fs { errorHtml_ fs (statTarget fs r) with code_ := c } b4 ∧
      b4.Inv ∧
      b4.readableData = buff.readableData ++ (statusLine c reason
        ++ (connectionHeader r.isKeepAlive_
          ++ contentTypeHeader (errorHtml_ fs (statTarget fs r)).getFileType_)) := by
  obtain ⟨reason, hl, heq, hi, hr⟩ := addStateLine_spec (errorHtml_ fs (statTarget fs r)) buff h
  obtain ⟨hi4, hr4⟩ := addHeader_spec ((errorHtml_ fs (statTarget fs r)).addStateLine_ buff).1 _ hi
  refine ⟨_, reason, _, hl, ?_, ?_, hi4, ?_⟩
  · intro known hk
    rw [addStateLine_known _ buff known hk]
  · unfold makeResponse
    simp only
    rw [← heq]
  · rw [hr4, hr, List.append_assoc]
    have hk : ((errorHtml_ fs (statTarget fs r)).addStateLine_ buff).1.isKeepAlive_
        = r.isKeepAlive_ := by
      rw [heq]; exact (errorHtml_frame fs _).2.2.1.trans (statTarget_frame fs r).2.2.1
    have ht : ((errorHtml_ fs (statTarget fs r)).addStateLine_ buff).1.getFileType_
        = (errorHtml_ fs (statTarget fs r)).getFileType_ := by
      rw [heq]; rfl
    rw [hk, ht]

/-- The error pages of `CODE_PATH` are `/400.html`, `/403.html` and `/404.html`. -/
theorem CODE_PATH_cases (c : Int) (page : List Char) (h : CODE_PATH.lookup c = some page) :
    (c = 400 ∧ page = "/400.html".toList) ∨ (c = 403 ∧ page = "/403.html".toList)
      ∨ (c = 404 ∧ page = "/404.html".toList) := by
  by_cases h0 : c = 400
  · subst h0; left; exact ⟨rfl, by simpa [CODE_PATH, List.lookup] using h.symm⟩
  by_cases h3 : c = 403
  · subst h3; right; left; exact ⟨rfl, by simpa [CODE_PATH, List.lookup] using h.symm⟩
  by_cases h4 : c = 404
  · subst h4; right; right; exact ⟨rfl, by simpa [CODE_PATH, List.lookup] using h.symm⟩
  · exfalso
    have e0 : (c == 400) = false := beq_false_of_ne h0
    have e3 : (c == 403) = false := beq_false_of_ne h3
    have e4 : (c == 404) = false := beq_false_of_ne h4
    have : CODE_PATH.lookup c = none := by
      simp only [CODE_PATH, List.lookup, e0, e3, e4]
    rw [this] at h
    cases h

theorem addContent_open_fails (fs : FileSystem) (r : HttpResponse) (buff : Buffer)
    (hopen : fs.open_ (r.srcDir_ ++ r.path_) = none) :
    addContent_ fs r buff = some (r, r.errorContent buff "File Not Found!".toList) := by
  unfold addContent_
  rw [hopen]

theorem addContent_mapped (fs : FileSystem) (r : HttpResponse) (buff : Buffer) (fd : Nat)
    (region : List Char) (hopen : fs.open_ (r.srcDir_ ++ r.path_) = some fd)
    (hmap : fs.mmap fd r.mmFileStat_.st_size = .mapped region)
    (hword : derefIsMinusOne region = false) :
    addContent_ fs r buff
      = some ({ r with mmFile_ := some region },
          buff.append (contentLengthHeader r.mmFileStat_.st_size)) := by
  unfold addContent_
  rw [hopen]
  simp only
  rw [hmap]
  simp only [hword, Bool.false_eq_true, if_false]
  rfl

/-- What `makeResponse` writes when the final target cannot be opened. -/
theorem makeResponse_inline (fs : FileSystem) (r : HttpResponse) (buff : Buffer) (hb : buff.Inv)
    (hopen : fs.open_ (r.srcDir_ ++ (errorHtml_ fs (statTarget fs r)).path_) = none) :
    ∃ r' b' reason, makeResponse fs r buff = some (r', b') ∧ r'.file = r.file ∧
      CODE_STATUS.lookup r'.code_ = some reason ∧
      b'.readableData = buff.readableData ++ statusLine r'.code_ reason
        ++ connectionHeader r.isKeepAlive_ ++ contentTypeHeader r'.getFileType_
        ++ contentLengthHeader (inlineErrorPage r'.code_ reason).length
        ++ inlineErrorPage r'.code_ reason := by
  obtain ⟨c, reason, b4, hl, _, hmk, hi4, hr4⟩ := makeResponse_head fs r buff hb
  have hsrc : (errorHtml_ fs (statTarget fs r)).srcDir_ = r.srcDir_ :=
    (errorHtml_frame fs _).2.1.trans (statTarget_frame fs r).2.1
  have hfile : (errorHtml_ fs (statTarget fs r)).mmFile_ = r.mmFile_ :=
    (errorHtml_frame fs _).2.2.2.trans (statTarget_frame fs r).2.2.2
  refine ⟨{ errorHtml_ fs (statTarget fs r) with code_ := c },
    HttpResponse.errorContent { errorHtml_ fs (statTarget fs r) with code_ := c } b4
      "File Not Found!".toList, reason, ?_, hfile, hl, ?_⟩
  · rw [hmk]
    exact addContent_open_fails fs _ b4 (by rw [← hopen, ← hsrc])
  · rw [(errorContent_spec _ b4 _ hi4).2, hr4]
    simp only [errorBody_eq c reason hl, List.append_assoc]
    rfl

/-- What `makeResponse` writes when the final target opens and maps and the `int` at the
start of the mapping is not -1. -/
theorem makeResponse_mapped (fs : FileSystem) (r : HttpResponse) (buff : Buffer) (fd : Nat)
    (region : List Char) (hb : buff.Inv)
    (hopen : fs.open_ (r.srcDir_ ++ (errorHtml_ fs (statTarget fs r)).path_) = some fd)
    (hmap : fs.mmap fd (errorHtml_ fs (statTarget fs r)).mmFileStat_.st_size = .mapped region)
    (hword : derefIsMinusOne region = false) :
    ∃ r' b' reason, makeResponse fs r buff = some (r', b') ∧ r'.file = some region ∧
      r'.path_ = (errorHtml_ fs (statTarget fs r)).path_ ∧
      r'.mmFileStat_ = (errorHtml_ fs (statTarget fs r)).mmFileStat_ ∧
      CODE_STATUS.lookup r'.code_ = some reason ∧
      (∀ known, CODE_STATUS.lookup (statTarget fs r).code_ = some known →
        r'.code_ = (statTarget fs r).code_) ∧
      b'.readableData = buff.readableData ++ statusLine r'.code_ reason
        ++ connectionHeader r.isKeepAlive_ ++ contentTypeHeader r'.getFileType_
        ++ contentLengthHeader r'.fileLen := by
  obtain ⟨c, reason, b4, hl, hknown, hmk, hi4, hr4⟩ := makeResponse_head fs r buff hb
  have hsrc : (errorHtml_ fs (statTarget fs r)).srcDir_ = r.srcDir_ :=
    (errorHtml_frame fs _).2.1.trans (statTarget_frame fs r).2.1
  have hcode : (errorHtml_ fs (statTarget fs r)).code_ = (statTarget fs r).code_ :=
    (errorHtml_frame fs _).1
  refine ⟨{ errorHtml_ fs (statTarget fs r) with code_ := c, mmFile_ := some region },
    b4.append (contentLengthHeader (errorHtml_ fs (statTarget fs r)).mmFileStat_.st_size),
    reason, ?_, rfl, rfl, rfl, hl, ?_, ?_⟩
  · rw [hmk]
    exact addContent_mapped fs _ b4 fd region (by rw [← hopen, ← hsrc]) hmap hword
  · intro known hk
    exact (hknown known (by rw [hcode]; exact hk)).trans hcode
  · rw [Buffer.append_readable _ _ hi4, hr4]
    simp only [List.append_assoc]
    rfl

end HttpResponse

/-! ## HttpResponse: what holds when the mapping check passes -/

namespace HttpResponse

theorem statTarget_ok (fs : FileSystem) (r : HttpResponse) (st : FileStat)
    (hstat : fs.stat (r.srcDir_ ++ r.path_) = some st) (hdir : S_ISDIR st.st_mode = false)
    (hread : st.st_mode &&& S_IROTH ≠ 0) :
    statTarget fs r
      = { r with mmFileStat_ := st, code_ := if r.code_ = -1 then 200 else r.code_ } := by
  unfold statTarget
  rw [hstat]
  simp only [hdir, Bool.false_eq_true, if_false, if_neg hread]
  split_ifs with hc
  · rfl
  · rfl

theorem errorHtml_keep (fs : FileSystem) (r : HttpResponse)
    (h : CODE_PATH.lookup r.code_ = none) : errorHtml_ fs r = r := by
  unfold errorHtml_
  rw [h]

theorem errorHtml_retarget (fs : FileSystem) (r : HttpResponse) (page : List Char)
    (st : FileStat) (h : CODE_PATH.lookup r.code_ = some page)
    (hstat : fs.stat (r.srcDir_ ++ page) = some st) :
    errorHtml_ fs r = { r with path_ := page, mmFileStat_ := st } := by
  unfold errorHtml_
  rw [h]
  simp only
  rw [hstat]

theorem getFileType_of_path (r r' : HttpResponse) (h : r'.path_ = r.path_) :
    r'.getFileType_ = r.getFileType_ := by
  unfold getFileType_
  rw [h]

/-- The success path of `makeResponse`, under the check the source makes on the mapping: a
readable regular file that opens and maps, and whose first `int` is not -1, is announced by
the 200 head with its own type and length, and is held as the body. -/
theorem makeResponse_serves_file (fs : FileSystem) (r0 : HttpResponse) (srcDir path : List Char)
    (ka : Bool) (code : Int) (buff : Buffer) (st : FileStat) (fd : Nat) (region : List Char)
    (hb : buff.Inv) (hcode : code = 200 ∨ code = -1)
    (hstat : fs.stat (srcDir ++ path) = some st) (hdir : S_ISDIR st.st_mode = false)
    (hread : st.st_mode &&& S_IROTH ≠ 0) (hopen : fs.open_ (srcDir ++ path) = some fd)
    (hmap : fs.mmap fd st.st_size = .mapped region) (hword : derefIsMinusOne region = false) :
    ∃ r' b', makeResponse fs (r0.init srcDir path ka code) buff = some (r', b') ∧
      b'.readableData = buff.readableData ++ statusLine 200 "OK".toList ++ connectionHeader ka
        ++ contentTypeHeader (r0.init srcDir path ka code).getFileType_
        ++ contentLengthHeader st.st_size ∧
      r'.fileLen = st.st_size ∧ r'.file = some region := by
  rw [init_eq]
  have hst := statTarget_ok fs
    { code_ := code, path_ := path, srcDir_ := srcDir, isKeepAlive_ := ka, mmFile_ := none,
      mmFileStat_ := { st_mode := 0, st_size := 0 } } st hstat hdir hread
  have h200 : (if code = -1 then (200 : Int) else code) = 200 := by
    rcases hcode with h | h <;> subst h <;> rfl
  simp only [h200] at hst
  have herr := errorHtml_keep fs _ (show CODE_PATH.lookup (statTarget fs _).code_ = none by
    rw [hst]; rfl)
  obtain ⟨r', b', reason, hres, hfile, hpath, hstat', hl, hknown, hdata⟩ :=
    makeResponse_mapped fs _ buff fd region hb (by rw [herr, hst]; exact hopen)
      (by rw [herr, hst]; exact hmap) hword
  have hc : r'.code_ = 200 := by
    rw [hknown "OK".toList (by rw [hst]; rfl), hst]
  rw [hc] at hl hdata
  have hreason : reason = "OK".toList := by
    have : CODE_STATUS.lookup 200 = some "OK".toList := rfl
    rw [this] at hl
    exact (Option.some.inj hl).symm
  have hlen : r'.fileLen = st.st_size := by
    unfold fileLen
    rw [hstat', herr, hst]
  have htype : r'.getFileType_ = HttpResponse.getFileType_
      { code_ := code, path_ := path, srcDir_ := srcDir, isKeepAlive_ := ka, mmFile_ := none,
        mmFileStat_ := { st_mode := 0, st_size := 0 } } :=
    getFileType_of_path _ _ (by rw [hpath, herr, hst])
  refine ⟨r', b', hres, ?_, hlen, hfile⟩
  rw [hdata, hreason, hlen, htype]

/-- The error-page path of `makeResponse`, under the check the source makes on the mapping:
when the status resolves to a code with an error page that exists, opens and maps, and the
first `int` of the page is not -1, the page is announced as `text/html` with its own
length, and is held as the body. -/
theorem makeResponse_serves_error_page (fs : FileSystem) (r0 : HttpResponse)
    (srcDir path : List Char) (ka : Bool) (code c : Int) (buff : Buffer) (page : List Char)
    (st : FileStat) (fd : Nat) (region : List Char) (hb : buff.Inv)
    (hres : specStatus (fs.stat (srcDir ++ path)) code = c)
    (hpage : CODE_PATH.lookup c = some page)
    (hstat : fs.stat (srcDir ++ page) = some st) (hopen : fs.open_ (srcDir ++ page) = some fd)
    (hmap : fs.mmap fd st.st_size = .mapped region) (hword : derefIsMinusOne region = false) :
    ∃ r' b' reason, makeResponse fs (r0.init srcDir path ka code) buff = some (r', b') ∧
      r'.path_ = page ∧ CODE_STATUS.lookup c = some reason ∧
      b'.readableData = buff.readableData ++ statusLine c reason ++ connectionHeader ka
        ++ contentTypeHeader "text/html".toList ++ contentLengthHeader st.st_size ∧
      r'.fileLen = st.st_size ∧ r'.file = some region := by
  rw [init_eq]
  have hcode := statTarget_code fs
    { code_ := code, path_ := path, srcDir_ := srcDir, isKeepAlive_ := ka, mmFile_ := none,
      mmFileStat_ := { st_mode := 0, st_size := 0 } }
  simp only [hres] at hcode
  have hsrc := (statTarget_frame fs
    { code_ := code, path_ := path, srcDir_ := srcDir, isKeepAlive_ := ka, mmFile_ := none,
      mmFileStat_ := { st_mode := 0, st_size := 0 } }).2.1
  simp only at hsrc
  have herr := errorHtml_retarget fs (statTarget fs _) page st (by rw [hcode]; exact hpage)
    (by rw [hsrc]; exact hstat)
  obtain ⟨r', b', reason, hmk, hfile, hpath, hstat', hl, hknown, hdata⟩ :=
    makeResponse_mapped fs _ buff fd region hb (by rw [herr]; exact hopen)
      (by rw [herr]; exact hmap) hword
  have hknownc : ∃ known, CODE_STATUS.lookup c = some known := by
    rcases CODE_PATH_cases c page hpage with ⟨h, _⟩ | ⟨h, _⟩ | ⟨h, _⟩ <;> subst h
    · exact ⟨_, rfl⟩
    · exact ⟨_, rfl⟩
    · exact ⟨_, rfl⟩
  obtain ⟨known, hk⟩ := hknownc
  have hc : r'.code_ = c := by
    rw [hknown known (by rw [hcode]; exact hk), hcode]
  rw [hc] at hl hdata
  have hlen : r'.fileLen = st.st_size := by
    unfold fileLen
    rw [hstat', herr]
  have hp : r'.path_ = page := by rw [hpath, herr]
  have htype : r'.getFileType_ = "text/html".toList := by
    unfold getFileType_
    rw [hp]
    rcases CODE_PATH_cases c page hpage with ⟨_, h⟩ | ⟨_, h⟩ | ⟨_, h⟩ <;> subst h <;> rfl
  refine ⟨r', b', reason, hmk, hp, hl, ?_, hlen, hfile⟩
  rw [hdata, hlen, htype]

end HttpResponse

/-! ## HttpResponse: status, head, error page, inline page, mapping check -/

set_option maxRecDepth 100000

namespace HttpResponse

/-- Scenario A of the specification: `/index.html` of 11 bytes, no keep-alive. -/
theorem scenario_A_head :
    written (makeResponse siteFiles (request "/srv" "/index.html" false 200) (Buffer.new 64))
      = some ("HTTP/1.1 200 OK\r\nConnection: close\r\nContent-type: text/html\r\n".toList
          ++ "Content-length: 11\r\n\r\n".toList) ∧
    held (makeResponse siteFiles (request "/srv" "/index.html" false 200) (Buffer.new 64))
      = some (some "<h1>hi</h1>".toList) := by
  decide

/-- C5 at a failing input: `/blob.bin` is a world-readable regular file of 8 bytes that
opens and maps, and its first four bytes are 0xFF. With preset code 200 the claim promises
the head that ends in `Content-length: 8` and nothing else; the source takes the mapping for
a failed one, writes `Content-length: 116` and the inline error page, and holds no mapping. -/
theorem makeResponse_on_ones_file :
    siteFiles.stat "/srv/blob.bin".toList = some { st_mode := 0o100644, st_size := 8 } ∧
    S_ISDIR 0o100644 = false ∧ (0o100644 : Nat) &&& S_IROTH ≠ 0 ∧
    siteFiles.open_ "/srv/blob.bin".toList = some 5 ∧
    siteFiles.mmap 5 8 = .mapped (onesThenText "data".toList) ∧
    written (makeResponse siteFiles (request "/srv" "/blob.bin" false 200) (Buffer.new 64))
      = some (statusLine 200 "OK".toList ++ connectionHeader false
          ++ contentTypeHeader "text/plain".toList ++ contentLengthHeader 116
          ++ inlineErrorPage 200 "OK".toList) ∧
    written (makeResponse siteFiles (request "/srv" "/blob.bin" false 200) (Buffer.new 64))
      ≠ some (statusLine 200 "OK".toList ++ connectionHeader false
          ++ contentTypeHeader (request "/srv" "/blob.bin" false 200).getFileType_
          ++ contentLengthHeader 8) ∧
    held (makeResponse siteFiles (request "/srv" "/blob.bin" false 200) (Buffer.new 64))
      = some none := by
  decide

/-- C6: the status `makeResponse` holds when it writes the status line is 404 if stat of
`srcDir + path` fails or the target is a directory, otherwise 403 if the world-read bit is
unset, otherwise 200 if the preset code is -1, otherwise the preset code; so no preset code,
200 included, survives a missing, directory or non-world-readable target. -/
theorem makeResponse_status (fs : FileSystem) (r : HttpResponse) (buff : Buffer) :
    (errorHtml_ fs (statTarget fs r)).code_
        = specStatus (fs.stat (r.srcDir_ ++ r.path_)) r.code_ ∧
      makeResponse fs r buff
        = addContent_ fs ((errorHtml_ fs (statTarget fs r)).addStateLine_ buff).1
            (((errorHtml_ fs (statTarget fs r)).addStateLine_ buff).1.addHeader_
              ((errorHtml_ fs (statTarget fs r)).addStateLine_ buff).2) ∧
      ((∀ st, fs.stat (r.srcDir_ ++ r.path_) = some st →
          S_ISDIR st.st_mode = true ∨ st.st_mode &&& S_IROTH = 0) →
        (errorHtml_ fs (statTarget fs r)).code_ = 404
          ∨ (errorHtml_ fs (statTarget fs r)).code_ = 403) := by
  have hcode : (errorHtml_ fs (statTarget fs r)).code_
      = specStatus (fs.stat (r.srcDir_ ++ r.path_)) r.code_ :=
    (errorHtml_frame fs _).1.trans (statTarget_code fs r)
  refine ⟨hcode, rfl, ?_⟩
  intro hbad
  rw [hcode]
  unfold specStatus
  cases hs : fs.stat (r.srcDir_ ++ r.path_) with
  | none => exact Or.inl rfl
  | some st =>
    simp only
    rcases hbad st hs with hd | hr
    · rw [if_pos hd]; exact Or.inl rfl
    · by_cases hd : S_ISDIR st.st_mode = true
      · rw [if_pos hd]; exact Or.inl rfl
      · rw [if_neg hd, if_pos hr]; exact Or.inr rfl

theorem makeResponse_status_witness :
    (∀ st, siteFiles.stat ((request "/srv" "/secret.txt" false 200).srcDir_
          ++ (request "/srv" "/secret.txt" false 200).path_) = some st →
        S_ISDIR st.st_mode = true ∨ st.st_mode &&& S_IROTH = 0) ∧
      ((errorHtml_ siteFiles (statTarget siteFiles (request "/srv" "/secret.txt" false 200))).code_
          = 404
        ∨ (errorHtml_ siteFiles (statTarget siteFiles (request "/srv" "/secret.txt" false 200))).code_
          = 403) :=
  have hbad : ∀ st, siteFiles.stat ((request "/srv" "/secret.txt" false 200).srcDir_
        ++ (request "/srv" "/secret.txt" false 200).path_) = some st →
      S_ISDIR st.st_mode = true ∨ st.st_mode &&& S_IROTH = 0 := by
    intro st h
    have hs : siteFiles.stat ((request "/srv" "/secret.txt" false 200).srcDir_
        ++ (request "/srv" "/secret.txt" false 200).path_)
        = some { st_mode := 0o100640, st_size := 6 } := by decide
    rw [hs] at h
    cases h
    exact Or.inr (by decide)
  ⟨hbad, (makeResponse_status siteFiles (request "/srv" "/secret.txt" false 200)
    (Buffer.new 64)).2.2 hbad⟩

/-- C7 at failing inputs: with the code preset to 400 and no keep-alive, the empty path (the
static root, a directory) and a missing path get the status line of 404, an unreadable file
gets that of 403; the line of 400 is written only for a readable regular file. -/
theorem makeResponse_preset_400_overridden :
    written (makeResponse siteFiles (request "/srv" "" false 400) (Buffer.new 64))
      = some (statusLine 404 "Not Found".toList ++ connectionHeader false
          ++ contentTypeHeader "text/html".toList ++ contentLengthHeader 12) ∧
    written (makeResponse siteFiles (request "/srv" "/nope" false 400) (Buffer.new 64))
      = some (statusLine 404 "Not Found".toList ++ connectionHeader false
          ++ contentTypeHeader "text/html".toList ++ contentLengthHeader 12) ∧
    written (makeResponse siteFiles (request "/srv" "/secret.txt" false 400) (Buffer.new 64))
      = some (statusLine 403 "Forbidden".toList ++ connectionHeader false
          ++ contentTypeHeader "text/html".toList ++ contentLengthHeader 123
          ++ inlineErrorPage 403 "Forbidden".toList) ∧
    written (makeResponse siteFiles (request "/srv" "/index.html" false 400) (Buffer.new 64))
      = some (statusLine 400 "Bad Request".toList ++ connectionHeader false
          ++ contentTypeHeader "text/html".toList ++ contentLengthHeader 125
          ++ inlineErrorPage 400 "Bad Request".toList) := by
  decide

/-- C8 at a failing input: `/nope` is missing and `/404.html` exists with 16 bytes, opens and
maps, and its first four bytes are 0xFF. The claim promises `Content-length: 16` and the
mapped page as the body; the source takes the mapping for a failed one, writes
`Content-length: 123` and the inline error page, and holds no mapping. -/
theorem makeResponse_on_ones_error_page :
    onesPageFiles.stat "/srv/nope".toList = none ∧
    onesPageFiles.stat "/srv/404.html".toList = some { st_mode := 0o100644, st_size := 16 } ∧
    onesPageFiles.open_ "/srv/404.html".toList = some 4 ∧
    onesPageFiles.mmap 4 16 = .mapped (onesThenText "<h1>404</h1>".toList) ∧
    written (makeResponse onesPageFiles (request "/srv" "/nope" false 200) (Buffer.new 64))
      = some (statusLine 404 "Not Found".toList ++ connectionHeader false
          ++ contentTypeHeader "text/html".toList ++ contentLengthHeader 123
          ++ inlineErrorPage 404 "Not Found".toList) ∧
    held (makeResponse onesPageFiles (request "/srv" "/nope" false 200) (Buffer.new 64))
      = some none ∧
    (makeResponse onesPageFiles (request "/srv" "/nope" false 200) (Buffer.new 64)).map
      (fun x => x.1.fileLen) = some 16 := by
  decide

/-- Scenario B of the specification with `/404.html` present: the page is served. -/
theorem scenario_B_page :
    written (makeResponse siteFiles (request "/srv" "/nope" false 200) (Buffer.new 64))
      = some ("HTTP/1.1 404 Not Found\r\nConnection: close\r\nContent-type: text/html\r\n".toList
          ++ "Content-length: 12\r\n\r\n".toList) ∧
    held (makeResponse siteFiles (request "/srv" "/nope" false 200) (Buffer.new 64))
      = some (some "<h1>404</h1>".toList) := by
  decide

/-- C9: when the final target (the error page after a retarget, else the requested path)
cannot be opened, `makeResponse` on an initialised response returns holding no mapping, and
after the Content-type header it appends exactly `Content-length: L`, the blank line and the
inline error page with `<code> : <reason>` of the status written in the status line, `L`
being the length of that page. -/
theorem makeResponse_open_fails (fs : FileSystem) (r0 : HttpResponse) (srcDir path : List Char)
    (ka : Bool) (code : Int) (buff : Buffer) (hb : buff.Inv)
    (hopen : fs.open_ (srcDir
      ++ (errorHtml_ fs (statTarget fs (r0.init srcDir path ka code))).path_) = none) :
    ∃ r' b' reason, makeResponse fs (r0.init srcDir path ka code) buff = some (r', b') ∧
      r'.file = none ∧ CODE_STATUS.lookup r'.code_ = some reason ∧
      b'.readableData = buff.readableData ++ statusLine r'.code_ reason
        ++ connectionHeader ka ++ contentTypeHeader r'.getFileType_
        ++ contentLengthHeader (inlineErrorPage r'.code_ reason).length
        ++ inlineErrorPage r'.code_ reason := by
  have hi := init_eq r0 srcDir path ka code
  obtain ⟨r', b', reason, hres, hfile, hl, hdata⟩ :=
    makeResponse_inline fs (r0.init srcDir path ka code) buff hb (by rw [hi] at hopen ⊢; exact hopen)
  refine ⟨r', b', reason, hres, ?_, hl, ?_⟩
  · rw [hfile, hi]; rfl
  · rw [hdata, hi]

theorem makeResponse_open_fails_witness :
    (Buffer.new 64).Inv ∧
      noFiles.open_ ("/srv".toList ++ (errorHtml_ noFiles (statTarget noFiles
        (HttpResponse.new.init "/srv".toList "/nope".toList false 200))).path_) = none ∧
      ∃ r' b' reason, makeResponse noFiles
          (HttpResponse.new.init "/srv".toList "/nope".toList false 200) (Buffer.new 64)
            = some (r', b') ∧
        r'.file = none ∧ CODE_STATUS.lookup r'.code_ = some reason ∧
        b'.readableData = (Buffer.new 64).readableData ++ statusLine r'.code_ reason
          ++ connectionHeader false ++ contentTypeHeader r'.getFileType_
          ++ contentLengthHeader (inlineErrorPage r'.code_ reason).length
          ++ inlineErrorPage r'.code_ reason :=
  ⟨by decide, by decide,
    makeResponse_open_fails noFiles HttpResponse.new "/srv".toList "/nope".toList false 200
      (Buffer.new 64) (by decide) (by decide)⟩

/-- Scenario B of the specification with `/404.html` absent: the inline page is written. -/
theorem scenario_B_inline :
    written (makeResponse noFiles (request "/srv" "/nope" false 200) (Buffer.new 64))
      = some ("HTTP/1.1 404 Not Found\r\nConnection: close\r\nContent-type: text/html\r\n".toList
          ++ "Content-length: 123\r\n\r\n".toList
          ++ "<html><title>Error</title><body bgcolor=\"ffffff\">404 : Not Found\n".toList
          ++ "<p>File Not Found!</p><hr><em>WebServer</em></body></html>".toList) ∧
    held (makeResponse noFiles (request "/srv" "/nope" false 200) (Buffer.new 64))
      = some none := by
  decide

/-- C10 at failing inputs. `/empty.txt` opens and its mapping fails (length 0): the source
reads through `MAP_FAILED` and writes nothing, where the claim promises the inline page.
`/blob.bin` opens and maps, with 0xFF in its first four bytes: the source writes the inline
page with `Content-length: 116` and holds no mapping, where the claim promises the file. -/
theorem addContent_mmap_check :
    siteFiles.open_ "/srv/empty.txt".toList = some 6 ∧ siteFiles.mmap 6 0 = .MAP_FAILED ∧
    addContent_ siteFiles (statTarget siteFiles (request "/srv" "/empty.txt" false 200))
      (Buffer.new 64) = none ∧
    siteFiles.open_ "/srv/blob.bin".toList = some 5 ∧
    siteFiles.mmap 5 8 = .mapped (onesThenText "data".toList) ∧
    written (addContent_ siteFiles (statTarget siteFiles (request "/srv" "/blob.bin" false 200))
      (Buffer.new 64))
      = some (contentLengthHeader 116 ++ inlineErrorPage 200 "OK".toList) ∧
    held (addContent_ siteFiles (statTarget siteFiles (request "/srv" "/blob.bin" false 200))
      (Buffer.new 64)) = some none := by
  decide

end HttpResponse

/-! ## HttpResponse: the status line and the file type -/

namespace HttpResponse

/-- A code outside the reason table is not found in `CODE_STATUS`. -/
theorem CODE_STATUS_unknown (c : Int) (h2 : c ≠ 200) (h0 : c ≠ 400) (h3 : c ≠ 403)
    (h4 : c ≠ 404) : CODE_STATUS.lookup c = none := by
  have e2 : (c == 200) = false := beq_false_of_ne h2
  have e0 : (c == 400) = false := beq_false_of_ne h0
  have e3 : (c == 403) = false := beq_false_of_ne h3
  have e4 : (c == 404) = false := beq_false_of_ne h4
  simp only [CODE_STATUS, List.lookup, e2, e0, e3, e4]

theorem find_last_of_absent (s : List Char) (c : Char) (h : c ∉ s) :
    find_last_of s c = none := by
  induction s with
  | nil => rfl
  | cons x xs ih =>
    have hx : x ≠ c := fun e => h (e ▸ List.mem_cons_self _ _)
    have hxs : c ∉ xs := fun m => h (List.mem_cons_of_mem _ m)
    simp only [find_last_of, ih hxs, if_neg hx]

theorem find_last_of_last (pre rest : List Char) (c : Char) (h : c ∉ rest) :
    find_last_of (pre ++ c :: rest) c = some pre.length := by
  induction pre with
  | nil => simp only [List.nil_append, find_last_of, find_last_of_absent rest c h, if_true,
      List.length_nil]
  | cons x xs ih =>
    simp only [List.cons_append, find_last_of, List.append_eq, ih, List.length_cons]

theorem getFileType_eq_specMime (r : HttpResponse) (pre rest : List Char)
    (hp : r.path_ = pre ++ '.' :: rest) (h : '.' ∉ rest) :
    r.getFileType_ = specMime ('.' :: rest) := by
  unfold getFileType_
  rw [hp, find_last_of_last pre rest '.' h]
  simp only [List.drop_left]
  rfl

theorem getFileType_no_dot (r : HttpResponse) (h : '.' ∉ r.path_) :
    r.getFileType_ = "text/plain".toList := by
  unfold getFileType_
  rw [find_last_of_absent _ _ h]

/-- What `addStateLine_` does for a code of the reason table. -/
theorem addStateLine_known_line (r : HttpResponse) (buff : Buffer) (reason : List Char)
    (h : buff.Inv) (hl : CODE_STATUS.lookup r.code_ = some reason) :
    (r.addStateLine_ buff).1 = r ∧
      (r.addStateLine_ buff).2.readableData
        = buff.readableData ++ statusLine r.code_ reason := by
  unfold addStateLine_
  rw [hl]
  exact ⟨rfl, Buffer.append_readable _ _ h⟩

/-- C11: on a buffer with the cursor invariant, for a code `c` in {200, 400, 403, 404}
`addStateLine_` keeps the code and appends exactly `HTTP/1.1 <c> <reason>\r\n` with the
reason of the fixed table (OK, Bad Request, Forbidden, Not Found); for every other code it
sets the code to 400 and appends exactly `HTTP/1.1 400 Bad Request\r\n`. -/
theorem addStateLine_table (r : HttpResponse) (buff : Buffer) (h : buff.Inv) :
    (r.code_ = 200 → (r.addStateLine_ buff).1 = r ∧
      (r.addStateLine_ buff).2.readableData
        = buff.readableData ++ "HTTP/1.1 200 OK\r\n".toList) ∧
    (r.code_ = 400 → (r.addStateLine_ buff).1 = r ∧
      (r.addStateLine_ buff).2.readableData
        = buff.readableData ++ "HTTP/1.1 400 Bad Request\r\n".toList) ∧
    (r.code_ = 403 → (r.addStateLine_ buff).1 = r ∧
      (r.addStateLine_ buff).2.readableData
        = buff.readableData ++ "HTTP/1.1 403 Forbidden\r\n".toList) ∧
    (r.code_ = 404 → (r.addStateLine_ buff).1 = r ∧
      (r.addStateLine_ buff).2.readableData
        = buff.readableData ++ "HTTP/1.1 404 Not Found\r\n".toList) ∧
    (r.code_ ≠ 200 → r.code_ ≠ 400 → r.code_ ≠ 403 → r.code_ ≠ 404 →
      (r.addStateLine_ buff).1 = { r with code_ := 400 } ∧
      (r.addStateLine_ buff).2.readableData
        = buff.readableData ++ "HTTP/1.1 400 Bad Request\r\n".toList) := by
  refine ⟨?_, ?_, ?_, ?_, ?_⟩
  · intro hc
    have := addStateLine_known_line r buff "OK".toList h (by rw [hc]; rfl)
    rw [hc] at this
    exact this
  · intro hc
    have := addStateLine_known_line r buff "Bad Request".toList h (by rw [hc]; rfl)
    rw [hc] at this
    exact this
  · intro hc
    have := addStateLine_known_line r buff "Forbidden".toList h (by rw [hc]; rfl)
    rw [hc] at this
    exact this
  · intro hc
    have := addStateLine_known_line r buff "Not Found".toList h (by rw [hc]; rfl)
    rw [hc] at this
    exact this
  · intro h2 h0 h3 h4
    unfold addStateLine_
    rw [CODE_STATUS_unknown r.code_ h2 h0 h3 h4]
    exact ⟨rfl, Buffer.append_readable _ _ h⟩

theorem addStateLine_table_witness :
    (Buffer.new 64).Inv ∧ (request "/srv" "/x" false 500).code_ ≠ 200 ∧
      (request "/srv" "/x" false 500).code_ ≠ 400 ∧ (request "/srv" "/x" false 500).code_ ≠ 403 ∧
      (request "/srv" "/x" false 500).code_ ≠ 404 ∧
      ((request "/srv" "/x" false 500).addStateLine_ (Buffer.new 64)).1
        = { request "/srv" "/x" false 500 with code_ := 400 } ∧
      ((request "/srv" "/x" false 500).addStateLine_ (Buffer.new 64)).2.readableData
        = (Buffer.new 64).readableData ++ "HTTP/1.1 400 Bad Request\r\n".toList :=
  ⟨by decide, by decide, by decide, by decide, by decide,
    (addStateLine_table (request "/srv" "/x" false 500) (Buffer.new 64) (by decide)).2.2.2.2
      (by decide) (by decide) (by decide) (by decide)⟩

/-- C12: `getFileType_` returns the value that the table of the specification (19 suffixes,
`.css` giving `text/css ` and `.js` giving `text/javascript `, trailing space included) has
for the substring of the path from its last `.`, and `text/plain` when that substring is
not in the table, when the path has no `.`, and when the last `.` lies in a directory
component. -/
theorem getFileType_table (r : HttpResponse) :
    (∀ pre rest, r.path_ = pre ++ '.' :: rest → '.' ∉ rest →
      r.getFileType_ = specMime ('.' :: rest)) ∧
    ('.' ∉ r.path_ → r.getFileType_ = "text/plain".toList) ∧
    (∀ suffix, suffix ∉ specSuffixTable.map Prod.fst → specMime suffix = "text/plain".toList) ∧
    (∀ suffix, '/' ∈ suffix → specMime suffix = "text/plain".toList) ∧
    SUFFIX_TYPE = specSuffixTable ∧ specSuffixTable.length = 19 ∧
    (specSuffixTable.map Prod.fst).Nodup ∧
    specMime ".css".toList = "text/css ".toList ∧
    specMime ".js".toList = "text/javascript ".toList := by
  have hplain : ∀ suffix, suffix ∉ specSuffixTable.map Prod.fst →
      specMime suffix = "text/plain".toList := by
    intro suffix hs
    have hnone : specSuffixTable.lookup suffix = none := by
      rw [List.lookup_eq_none_iff]
      intro p hp
      have hne : suffix ≠ p.1 := fun e => hs (List.mem_map.mpr ⟨p, hp, e.symm⟩)
      simpa using hne
    unfold specMime
    rw [hnone]
  have hkeys : ∀ k ∈ specSuffixTable.map Prod.fst, '/' ∉ k := by decide
  exact ⟨fun pre rest hp h => getFileType_eq_specMime r pre rest hp h,
    getFileType_no_dot r, hplain, fun suffix hs => hplain suffix (fun hk => hkeys suffix hk hs),
    rfl, rfl, by decide, rfl, rfl⟩

theorem getFileType_table_witness :
    (request "/srv" "/a.b/x.tar.gz" false 200).path_ = "/a.b/x.tar".toList ++ '.' :: "gz".toList ∧
      '.' ∉ "gz".toList ∧
      (request "/srv" "/a.b/x.tar.gz" false 200).getFileType_ = specMime ('.' :: "gz".toList) ∧
      specMime ('.' :: "gz".toList) = "application/x-gzip".toList :=
  ⟨by decide, by decide,
    (getFileType_table (request "/srv" "/a.b/x.tar.gz" false 200)).1 "/a.b/x.tar".toList
      "gz".toList (by decide) (by decide), by decide⟩

/-- Paths with no suffix, with the last `.` in a directory component, and with the two
suffixes whose type ends in a space. -/
theorem getFileType_examples :
    (request "/srv" "/README" false 200).getFileType_ = "text/plain".toList ∧
    (request "/srv" "/v1.2/notes" false 200).getFileType_ = "text/plain".toList ∧
    (request "/srv" "/site.css" false 200).getFileType_ = "text/css ".toList ∧
    (request "/srv" "/app.js" false 200).getFileType_ = "text/javascript ".toList ∧
    (request "/srv" "/photo.JPG" false 200).getFileType_ = "text/plain".toList := by
  decide

end HttpResponse

/-! ## WebServer: lemmas -/

namespace Server

theorem lor_eq_zero (x y : Nat) : x ||| y = 0 ↔ x = 0 ∧ y = 0 := by
  constructor
  · intro h
    have hb : ∀ i, x.testBit i = false ∧ y.testBit i = false := by
      intro i
      have : (x ||| y).testBit i = false := by rw [h, Nat.zero_testBit]
      rw [Nat.testBit_or, Bool.or_eq_false_iff] at this
      exact this
    constructor
    · apply Nat.eq_of_testBit_eq
      intro i
      rw [(hb i).1, Nat.zero_testBit]
    · apply Nat.eq_of_testBit_eq
      intro i
      rw [(hb i).2, Nat.zero_testBit]
  · rintro ⟨rfl, rfl⟩
    rfl

/-- The mask test of the loop, `events & (EPOLLRDHUP | EPOLLHUP | EPOLLERR)`, is true when
the event carries one of the three flags. -/
theorem intersects_iff (ev : Nat) :
    ev &&& (EPOLLRDHUP ||| EPOLLHUP ||| EPOLLERR) ≠ 0
      ↔ hasFlag ev EPOLLRDHUP ∨ hasFlag ev EPOLLHUP ∨ hasFlag ev EPOLLERR := by
  unfold hasFlag
  rw [Nat.and_or_distrib_left, Nat.and_or_distrib_left, Ne, lor_eq_zero, lor_eq_zero]
  constructor
  · intro h
    by_cases h1 : ev &&& EPOLLRDHUP = 0
    · by_cases h2 : ev &&& EPOLLHUP = 0
      · right; right
        intro h3
        exact h ⟨⟨h1, h2⟩, h3⟩
      · right; left; exact h2
    · left; exact h1
  · rintro (h | h | h) ⟨⟨h1, h2⟩, h3⟩
    · exact h h1
    · exact h h2
    · exact h h3

theorem dispatch_eq_specBranch (s : Server) (fd : Int) (ev : Nat) :
    dispatch s fd ev = specBranch s.listenFd_ s.pipefd_ fd ev := by
  unfold dispatch specBranch
  simp only [intersects_iff, hasFlag]

/-- With bytes left to write, `onWrite_` re-arms for writing only after a write that failed
with EAGAIN, and closes the connection in every other case. -/
theorem onWrite_pending (s : Server) (fd ret writeErrno : Int) (toWriteBytes : Nat)
    (isKeepAlive : Bool) (h : 0 < toWriteBytes) :
    onWrite_ s fd ret writeErrno toWriteBytes isKeepAlive
      = if ret < 0 ∧ writeErrno = EAGAIN then
          [.connWrite fd, .modFd fd (s.connEvent_ ||| EPOLLOUT)]
        else [.connWrite fd, .delFd fd, .connClose fd] := by
  unfold onWrite_ closeConn_
  rw [if_neg (by omega)]
  by_cases h1 : ret < 0 <;> by_cases h2 : writeErrno = EAGAIN <;> simp [h1, h2]

/-- The number of `accept` calls in a trace. -/
theorem dealListen_level (s : Server) (MAX_FD : Int) (rounds : List Accepted)
    (h : s.listenEvent_ &&& EPOLLET = 0) :
    (dealListen_ s MAX_FD rounds).count Call.accept = 1 := by
  cases rounds with
  | nil => rfl
  | cons a rest =>
    unfold dealListen_
    split_ifs with h1 h2 h3
    · rfl
    · simp [sendError_]
    · exact absurd h h3
    · simp [addClient_]
      split_ifs <;> simp

end Server

/-! ## WebServer: write, read, dispatch, signals, accept -/

namespace Server

/-- C13 at a failing input: in level-triggered mode a write sends 3000 bytes (`ret = 3000`,
`writeErrno` untouched) and 2000 bytes remain. The claim promises a re-arm with
`connEvent_ | EPOLLOUT` and no close; the source falls through both branches to
`closeConn_`, with or without keep-alive. A write that fails with EAGAIN is re-armed. -/
theorem onWrite_partial_progress :
    onWrite_ levelServer 7 3000 0 2000 true = [.connWrite 7, .delFd 7, .connClose 7] ∧
    onWrite_ levelServer 7 3000 0 2000 false = [.connWrite 7, .delFd 7, .connClose 7] ∧
    onWrite_ levelServer 7 (-1) EAGAIN 2000 true
      = [.connWrite 7, .modFd 7 (levelServer.connEvent_ ||| EPOLLOUT)] := by
  decide

/-- C14: when `toWriteBytes() == 0` after the write, `onWrite_` re-arms the fd with
`connEvent_ | EPOLLIN` and neither deletes it from the mux nor closes it if the request
asked for keep-alive, and otherwise deletes it from the mux and closes the connection
without any re-arm; whatever the write returned. -/
theorem onWrite_complete (s : Server) (fd ret writeErrno : Int) :
    onWrite_ s fd ret writeErrno 0 true = [.connWrite fd, .modFd fd (s.connEvent_ ||| EPOLLIN)] ∧
    onWrite_ s fd ret writeErrno 0 false = [.connWrite fd, .delFd fd, .connClose fd] := by
  constructor <;> rfl

/-- C15: `onRead_` closes the connection without calling `process()` exactly when `ret <= 0`
and `errno != EAGAIN`; in every other case it calls `process()` once and re-arms the fd
once, with `connEvent_ | EPOLLOUT` when `process()` returned true and `connEvent_ | EPOLLIN`
when it returned false. -/
theorem onRead_outcome (s : Server) (fd ret readErrno : Int) (processed : Bool) :
    onRead_ s fd ret readErrno processed
      = (if ret ≤ 0 ∧ readErrno ≠ EAGAIN then [.connRead fd, .delFd fd, .connClose fd]
         else [.connRead fd, .connProcess fd,
           .modFd fd (s.connEvent_ ||| (if processed then EPOLLOUT else EPOLLIN))]) ∧
    ((Call.connClose fd ∈ onRead_ s fd ret readErrno processed ∧
        Call.connProcess fd ∉ onRead_ s fd ret readErrno processed)
      ↔ (ret ≤ 0 ∧ readErrno ≠ EAGAIN)) := by
  unfold onRead_ onProcess_ closeConn_
  by_cases h : ret ≤ 0 ∧ readErrno ≠ EAGAIN
  · rw [if_pos h, if_pos h]
    simp [h]
  · rw [if_neg h, if_neg h]
    cases processed <;> simp [h]

/-- C16: for every event `(fd, ev)` the loop of `start()` takes the one branch that the
priority order of the specification gives: the listen fd, else an error or hangup flag,
else the signal pipe with EPOLLIN, else EPOLLIN, else EPOLLOUT. An event with an error or
hangup flag never reaches the read or the write handler, and an event with both EPOLLIN and
EPOLLOUT never reaches the write handler: on a connection without error flags it is read. -/
theorem dispatch_priority (s : Server) (fd : Int) (ev : Nat) :
    dispatch s fd ev = specBranch s.listenFd_ s.pipefd_ fd ev ∧
    (hasFlag ev EPOLLRDHUP ∨ hasFlag ev EPOLLHUP ∨ hasFlag ev EPOLLERR →
      dispatch s fd ev ≠ .dealRead_ ∧ dispatch s fd ev ≠ .dealWrite_) ∧
    (hasFlag ev EPOLLIN → hasFlag ev EPOLLOUT → dispatch s fd ev ≠ .dealWrite_) ∧
    (fd ≠ s.listenFd_ → fd ≠ s.pipefd_ →
      ¬ (hasFlag ev EPOLLRDHUP ∨ hasFlag ev EPOLLHUP ∨ hasFlag ev EPOLLERR) →
      hasFlag ev EPOLLIN → hasFlag ev EPOLLOUT → dispatch s fd ev = .dealRead_) ∧
    (fd = s.listenFd_ ∨ hasFlag ev EPOLLRDHUP ∨ hasFlag ev EPOLLHUP ∨ hasFlag ev EPOLLERR
        ∨ hasFlag ev EPOLLIN ∨ hasFlag ev EPOLLOUT →
      dispatch s fd ev ≠ .unexpected) := by
  have he := dispatch_eq_specBranch s fd ev
  refine ⟨he, ?_, ?_, ?_, ?_⟩
  · intro herr
    rw [he]
    unfold specBranch
    split_ifs <;> simp
  · intro hin hout
    rw [he]
    unfold specBranch
    split_ifs <;> simp
  · intro h1 h2 h3 hin hout
    rw [he]
    unfold specBranch
    rw [if_neg h1, if_neg h3, if_neg (fun h => h2 h.1), if_pos hin]
  · intro h
    rw [he]
    unfold specBranch
    split_ifs with h1 h2 h3 h4 h5 <;> simp
    rcases h with h | h | h | h | h | h
    · exact h1 h
    · exact h2 (Or.inl h)
    · exact h2 (Or.inr (Or.inl h))
    · exact h2 (Or.inr (Or.inr h))
    · exact h4 h
    · exact h5 h

theorem dispatch_priority_witness :
    (9 : Int) ≠ edgeServer.listenFd_ ∧ (9 : Int) ≠ edgeServer.pipefd_ ∧
      ¬ (hasFlag (EPOLLIN ||| EPOLLOUT) EPOLLRDHUP ∨ hasFlag (EPOLLIN ||| EPOLLOUT) EPOLLHUP
          ∨ hasFlag (EPOLLIN ||| EPOLLOUT) EPOLLERR) ∧
      hasFlag (EPOLLIN ||| EPOLLOUT) EPOLLIN ∧ hasFlag (EPOLLIN ||| EPOLLOUT) EPOLLOUT ∧
      dispatch edgeServer 9 (EPOLLIN ||| EPOLLOUT) = .dealRead_ :=
  ⟨by decide, by decide, by decide, by decide, by decide,
    (dispatch_priority edgeServer 9 (EPOLLIN ||| EPOLLOUT)).2.2.2.1
      (by decide) (by decide) (by decide) (by decide) (by decide)⟩

/-- The switch of `dealSignal_` sets the flag for SIGINT and SIGTERM and keeps it for every
other byte. -/
theorem signalCase_eq (isClose : Bool) (c : Char) :
    signalCase isClose c.toNat = (isClose || isShutdownSignal c) := by
  unfold signalCase isShutdownSignal
  by_cases h1 : c.toNat = SIGINT <;> by_cases h2 : c.toNat = SIGTERM <;>
    cases isClose <;> simp [h1, h2]

theorem signals_fold (bs : List Char) : ∀ isClose : Bool,
    bs.foldl (fun isClose c => signalCase isClose c.toNat) isClose
      = (isClose || bs.any isShutdownSignal) := by
  induction bs with
  | nil => intro isClose; simp
  | cons c cs ih =>
    intro isClose
    rw [List.foldl_cons, ih, signalCase_eq, List.any_cons, Bool.or_assoc]

/-- C17: for every prior value of the flag and every byte sequence `bs` that `recv` delivers
into the array, after `dealSignal_` the flag `isClose_` is the old one OR "some byte of
`bs` is SIGINT or SIGTERM" and nothing else of the server changes; when `recv` returns 0 or
-1 the server is unchanged. So the flag never goes from true to false, and other bytes never
set it. -/
theorem dealSignal_flag (s : Server) (bs rest : List Char) :
    dealSignal_ s bs.length (bs ++ rest)
      = { s with isClose_ := s.isClose_ || bs.any isShutdownSignal } ∧
    dealSignal_ s 0 (bs ++ rest) = s ∧ dealSignal_ s (-1) (bs ++ rest) = s ∧
    (∀ (ret : Int) (signals : List Char),
      s.isClose_ = true → (dealSignal_ s ret signals).isClose_ = true) := by
  refine ⟨?_, rfl, rfl, ?_⟩
  · unfold dealSignal_
    by_cases h : ((bs.length : Int) = 0 ∨ (bs.length : Int) = -1)
    · rw [if_pos h]
      have hnil : bs = [] := by
        rcases h with h | h
        · exact List.length_eq_zero.mp (by exact_mod_cast h)
        · omega
      subst hnil
      cases s
      simp
    · rw [if_neg h]
      have htake : (bs ++ rest).take (bs.length : Int).toNat = bs := by
        rw [Int.toNat_ofNat, List.take_left]
      rw [htake, signals_fold]
  · intro ret signals hs
    unfold dealSignal_
    split_ifs
    · exact hs
    · simp only [signals_fold, hs, Bool.true_or]

theorem dealSignal_flag_witness :
    ({ edgeServer with isClose_ := true } : Server).isClose_ = true ∧
      (dealSignal_ { edgeServer with isClose_ := true } 2 [Char.ofNat 13, Char.ofNat 10]).isClose_
        = true :=
  ⟨rfl, (dealSignal_flag { edgeServer with isClose_ := true } [] []).2.2.2 2
    [Char.ofNat 13, Char.ofNat 10] rfl⟩

/-- The signal bytes of SIGINT, of SIGTERM, and of neither. -/
theorem dealSignal_examples :
    (dealSignal_ edgeServer 1 [Char.ofNat 2]).isClose_ = true ∧
    (dealSignal_ edgeServer 1 [Char.ofNat 15]).isClose_ = true ∧
    (dealSignal_ edgeServer 2 [Char.ofNat 13, Char.ofNat 10]).isClose_ = false ∧
    (dealSignal_ edgeServer 0 [Char.ofNat 2]).isClose_ = false ∧
    (dealSignal_ edgeServer (-1) [Char.ofNat 2]).isClose_ = false := by
  decide

/-- C18 at a failing input: the listen fd is edge-triggered, `accept` returns fd 7 while
`userCount` has reached `MAX_FD` (65536 here), and a further connection is pending. The
claim lets `dealListen_` return only after an `accept` has failed; the source returns
right after the busy reply: one `accept` call, which succeeded, and fd 8 is left pending. -/
theorem dealListen_busy_returns :
    edgeServer.listenEvent_ &&& EPOLLET ≠ 0 ∧
    dealListen_ edgeServer 65536 [{ fd := 7, userCount := 65536 }, { fd := 8, userCount := 65536 }]
      = [.accept, .send 7 "Server Busy!".toList 12, .close 7] ∧
    (dealListen_ edgeServer 65536
      [{ fd := 7, userCount := 65536 }, { fd := 8, userCount := 65536 }]).count Call.accept = 1 := by
  decide

/-- With an edge-triggered listen fd and no round refused as busy, `dealListen_` calls
`accept` once for every pending connection and once more, the call that fails. -/
theorem dealListen_edge_drains (s : Server) (MAX_FD : Int) (rounds : List Accepted)
    (het : s.listenEvent_ &&& EPOLLET ≠ 0) (hroom : ∀ a ∈ rounds, a.userCount < MAX_FD) :
    (dealListen_ s MAX_FD rounds).count Call.accept
      = (rounds.takeWhile (fun a => decide (0 ≤ a.fd))).length + 1 := by
  induction rounds with
  | nil => rfl
  | cons a rest ih =>
    have hr : ¬ a.userCount ≥ MAX_FD := by
      have := hroom a (List.mem_cons_self _ _)
      omega
    have ih' := ih (fun b hb => hroom b (List.mem_cons_of_mem _ hb))
    unfold dealListen_
    by_cases hneg : a.fd < 0
    · rw [if_pos hneg, List.takeWhile_cons]
      have : decide (0 ≤ a.fd) = false := by simp; omega
      simp [this]
    · rw [if_neg hneg, if_neg hr, if_pos het, List.takeWhile_cons]
      have : decide (0 ≤ a.fd) = true := by simp; omega
      simp only [this, if_true, List.length_cons]
      rw [List.count_cons_self, List.count_append, ih']
      have hadd : (addClient_ s a.fd).count Call.accept = 0 := by
        unfold addClient_
        split_ifs <;> simp
      omega

/-- C19: for an accepted fd (positive, as the source asserts) that arrives while
`userCount >= MAX_FD`, `dealListen_` sends the 12 bytes `Server Busy!` on it, closes it and
returns, with no call on the connection map, the timer or the mux; for one that arrives
while `userCount < MAX_FD` it initialises the connection, adds its timer (when a timeout is
set) and registers it with `EPOLLIN | connEvent_`, and sends nothing. -/
theorem dealListen_full_or_register (s : Server) (MAX_FD : Int) (a : Accepted)
    (rest : List Accepted) (hfd : 0 < a.fd) :
    (MAX_FD ≤ a.userCount →
      dealListen_ s MAX_FD (a :: rest)
        = [.accept, .send a.fd "Server Busy!".toList 12, .close a.fd] ∧
      ∀ c ∈ dealListen_ s MAX_FD (a :: rest), c.touchesServer = false) ∧
    (a.userCount < MAX_FD →
      dealListen_ s MAX_FD (a :: rest)
        = .accept :: (addClient_ s a.fd
            ++ (if s.listenEvent_ &&& EPOLLET ≠ 0 then dealListen_ s MAX_FD rest else [])) ∧
      addClient_ s a.fd
        = [.connInit a.fd] ++ (if s.timeoutMS_ > 0 then [.timerAdd a.fd s.timeoutMS_] else [])
            ++ [.addFd a.fd (EPOLLIN ||| s.connEvent_), .setFdNonblock a.fd] ∧
      ∀ c ∈ addClient_ s a.fd, ∀ fd info len, c ≠ .send fd info len) := by
  have hnn : ¬ a.fd < 0 := by omega
  constructor
  · intro hfull
    have hcalls : dealListen_ s MAX_FD (a :: rest)
        = [.accept, .send a.fd "Server Busy!".toList 12, .close a.fd] := by
      unfold dealListen_
      rw [if_neg hnn, if_pos (by omega)]
      rfl
    refine ⟨hcalls, ?_⟩
    intro c hc
    rw [hcalls] at hc
    simp only [List.mem_cons, List.mem_singleton, List.not_mem_nil, or_false] at hc
    rcases hc with rfl | rfl | rfl <;> rfl
  · intro hroom
    refine ⟨?_, rfl, ?_⟩
    · conv_lhs => unfold dealListen_
      rw [if_neg hnn, if_neg (by omega)]
    · intro c hc fd info len
      unfold addClient_ at hc
      split_ifs at hc <;> simp at hc <;> rcases hc with rfl | rfl | rfl | rfl <;> simp

theorem dealListen_full_or_register_witness :
    (0 : Int) < ({ fd := 7, userCount := 65536 } : Accepted).fd ∧
      (65536 : Int) ≤ ({ fd := 7, userCount := 65536 } : Accepted).userCount ∧
      dealListen_ levelServer 65536 [{ fd := 7, userCount := 65536 }]
        = [.accept, .send 7 "Server Busy!".toList 12, .close 7] ∧
      ∀ c ∈ dealListen_ levelServer 65536 [{ fd := 7, userCount := 65536 }],
        c.touchesServer = false :=
  ⟨by decide, by decide,
    (dealListen_full_or_register levelServer 65536 { fd := 7, userCount := 65536 } []
      (by decide)).1 (by decide)⟩

/-- A connection accepted with room: initialised, timed, registered one-shot for reading. -/
theorem dealListen_register_example :
    dealListen_ levelServer 65536 [{ fd := 7, userCount := 10 }]
      = [.accept, .connInit 7, .timerAdd 7 60000,
          .addFd 7 (EPOLLIN ||| (EPOLLONESHOT ||| EPOLLRDHUP)), .setFdNonblock 7] := by
  decide

end Server

/-! ## ThreadPool: one worker runs the tasks in submission order -/

namespace ThreadPool

theorem OneWorker.step_keeps {Task : Type} (s : OneWorker Task) (e : PoolEvent Task)
    (h : s.started ++ s.pool.tasks = s.submitted) :
    (s.step e).started ++ (s.step e).pool.tasks = (s.step e).submitted := by
  cases e with
  | addTask task =>
    simp only [OneWorker.step, addTask]
    rw [← List.append_assoc, h]
  | destroy => exact h
  | worker =>
    unfold OneWorker.step
    by_cases hx : s.exited = true
    · rw [if_pos hx]; exact h
    · rw [if_neg hx]
      unfold workerPass
      cases ht : s.pool.tasks with
      | nil =>
        rw [ht] at h
        cases hc : s.pool.isClosed with
        | true => simp only [if_true]; rw [ht]; exact h
        | false => simp only [Bool.false_eq_true, if_false]; rw [ht]; exact h
      | cons task rest =>
        rw [ht] at h
        simp only
        rw [List.append_assoc]
        exact h

theorem OneWorker.run_keeps {Task : Type} (events : List (PoolEvent Task)) :
    ∀ s : OneWorker Task, s.started ++ s.pool.tasks = s.submitted →
      (s.run events).started ++ (s.run events).pool.tasks = (s.run events).submitted := by
  induction events with
  | nil => intro s h; exact h
  | cons e es ih =>
    intro s h
    exact ih (s.step e) (OneWorker.step_keeps s e h)

/-- C20: in every state that `ThreadPool(1)` reaches by steps of `addTask` (append to the
queue), of the worker (pop the head of the queue and run it, or wait, or leave) and of the
destructor, the tasks already started followed by the queued tasks are the tasks submitted
so far; so the worker starts the tasks in submission order. -/
theorem one_worker_fifo (Task : Type) (events : List (PoolEvent Task)) :
    ((OneWorker.init Task).run events).started ++ ((OneWorker.init Task).run events).pool.tasks
        = ((OneWorker.init Task).run events).submitted ∧
      ((OneWorker.init Task).run events).started <+: ((OneWorker.init Task).run events).submitted :=
  have h := OneWorker.run_keeps events (OneWorker.init Task) rfl
  ⟨h, ⟨_, h⟩⟩

/-- Three tasks submitted around two passes of the worker: 1 and 2 run, 3 is queued. -/
theorem one_worker_example :
    ((OneWorker.init Nat).run
        [.addTask 1, .addTask 2, .worker, .addTask 3, .worker]).started = [1, 2] ∧
    ((OneWorker.init Nat).run
        [.addTask 1, .addTask 2, .worker, .addTask 3, .worker]).pool.tasks = [3] ∧
    ((OneWorker.init Nat).run
        [.addTask 1, .addTask 2, .worker, .addTask 3, .worker]).submitted = [1, 2, 3] := by
  decide

end ThreadPool

/-! ## ThreadPool: a worker leaves only an empty, closed pool -/

namespace ThreadPool

theorem workerPass_exit {Task : Type} (p : Pool Task) :
    (∃ q, workerPass p = (q, .exit)) ↔ p.tasks = [] ∧ p.isClosed = true := by
  unfold workerPass
  cases ht : p.tasks with
  | nil =>
    cases hc : p.isClosed with
    | true => simp
    | false => simp
  | cons task rest => simp

theorem Workers.pass_fifo {Task : Type} (s : Workers Task) (e : WorkersEvent Task)
    (h : s.started ++ s.pool.tasks = s.submitted) :
    (s.step e).started ++ (s.step e).pool.tasks = (s.step e).submitted := by
  cases e with
  | addTask task =>
    simp only [Workers.step, addTask]
    rw [← List.append_assoc, h]
  | destroy => exact h
  | worker i =>
    simp only [Workers.step]
    by_cases hx : i ∈ s.exited
    · rw [if_pos hx]; exact h
    · rw [if_neg hx]
      unfold workerPass
      cases ht : s.pool.tasks with
      | nil =>
        rw [ht] at h
        cases hc : s.pool.isClosed with
        | true => simp only [if_true]; rw [ht]; exact h
        | false => simp only [Bool.false_eq_true, if_false]; rw [ht]; exact h
      | cons task rest =>
        rw [ht] at h
        simp only
        rw [List.append_assoc]
        exact h

theorem Workers.steps_fifo {Task : Type} (events : List (WorkersEvent Task)) :
    ∀ s : Workers Task, s.started ++ s.pool.tasks = s.submitted →
      (s.run events).started ++ (s.run events).pool.tasks = (s.run events).submitted := by
  induction events with
  | nil => intro s h; exact h
  | cons e es ih =>
    intro s h
    exact ih (s.step e) (Workers.pass_fifo s e h)

/-- A pass in which worker `i` leaves its loop starts from an empty, closed queue. -/
theorem Workers.exit_step {Task : Type} (s : Workers Task) (i : Nat) (hi : i ∉ s.exited)
    (hx : i ∈ (s.step (.worker i)).exited) : s.pool.tasks = [] ∧ s.pool.isClosed = true := by
  simp only [Workers.step] at hx
  rw [if_neg hi] at hx
  unfold workerPass at hx
  cases ht : s.pool.tasks with
  | nil =>
    cases hc : s.pool.isClosed with
    | true => exact ⟨rfl, rfl⟩
    | false =>
      rw [ht, hc] at hx
      exact absurd hx hi
  | cons task rest =>
    rw [ht] at hx
    exact absurd hx hi

/-- C21: the pass of a worker takes the exit branch only when the queue is empty and
`isClosed` is true; so in every state reached by submissions, passes of workers and the
destructor, a worker that leaves its loop leaves an empty queue of a closed pool, and every
task submitted until then, those queued before the destructor among them, has been popped
and started. -/
theorem worker_exit_drained (Task : Type) (events : List (WorkersEvent Task)) (i : Nat) :
    (∀ p : Pool Task, (∃ q, workerPass p = (q, .exit)) ↔ p.tasks = [] ∧ p.isClosed = true) ∧
    (i ∉ ((Workers.init Task).run events).exited →
      i ∈ (((Workers.init Task).run events).step (.worker i)).exited →
      ((Workers.init Task).run events).pool.tasks = [] ∧
      ((Workers.init Task).run events).pool.isClosed = true ∧
      ((Workers.init Task).run events).started = ((Workers.init Task).run events).submitted ∧
      (((Workers.init Task).run events).step (.worker i)).pool.tasks = []) := by
  refine ⟨workerPass_exit, ?_⟩
  intro hi hx
  obtain ⟨ht, hc⟩ := Workers.exit_step _ i hi hx
  have hk := Workers.steps_fifo events (Workers.init Task) rfl
  rw [ht, List.append_nil] at hk
  refine ⟨ht, hc, hk, ?_⟩
  simp only [Workers.step]
  rw [if_neg hi]
  unfold workerPass
  rw [ht, hc]
  simp only [if_true]
  exact ht

theorem worker_exit_drained_witness :
    0 ∉ ((Workers.init Nat).run [.addTask 5, .addTask 6, .destroy, .worker 0,
        .worker 1]).exited ∧
      0 ∈ (((Workers.init Nat).run [.addTask 5, .addTask 6, .destroy, .worker 0,
        .worker 1]).step (.worker 0)).exited ∧
      ((Workers.init Nat).run [.addTask 5, .addTask 6, .destroy, .worker 0,
        .worker 1]).pool.tasks = [] ∧
      ((Workers.init Nat).run [.addTask 5, .addTask 6, .destroy, .worker 0,
        .worker 1]).pool.isClosed = true ∧
      ((Workers.init Nat).run [.addTask 5, .addTask 6, .destroy, .worker 0,
        .worker 1]).started = ((Workers.init Nat).run [.addTask 5, .addTask 6, .destroy,
        .worker 0, .worker 1]).submitted ∧
      (((Workers.init Nat).run [.addTask 5, .addTask 6, .destroy, .worker 0,
        .worker 1]).step (.worker 0)).pool.tasks = [] :=
  ⟨by decide, by decide,
    (worker_exit_drained Nat [.addTask 5, .addTask 6, .destroy, .worker 0, .worker 1] 0).2
      (by decide) (by decide)⟩

/-- A closed pool with tasks left: the workers pop them, and leave only afterwards. -/
theorem worker_drain_example :
    ((Workers.init Nat).run [.addTask 5, .addTask 6, .destroy, .worker 0]).exited = [] ∧
    ((Workers.init Nat).run [.addTask 5, .addTask 6, .destroy, .worker 0]).started = [5] ∧
    ((Workers.init Nat).run
      [.addTask 5, .addTask 6, .destroy, .worker 0, .worker 1, .worker 0, .worker 1]).exited
        = [1, 0] ∧
    ((Workers.init Nat).run
      [.addTask 5, .addTask 6, .destroy, .worker 0, .worker 1, .worker 0, .worker 1]).started
        = [5, 6] := by
  decide

end ThreadPool

/-! ## WebServer: one-shot arming and the two dispatch modes -/

namespace Server

/-- A flag of a mask stays when further flags are added. -/
theorem hasFlag_lor (c x f : Nat) (h : hasFlag c f) : hasFlag (c ||| x) f := by
  unfold hasFlag at h ⊢
  rw [Nat.and_distrib_right]
  intro h0
  exact h ((lor_eq_zero _ _).mp h0).1

theorem connEvent_cases (s : Server) (trigMode : Int) :
    (s.initEventMode_ trigMode).connEvent_ = EPOLLONESHOT ||| EPOLLRDHUP ∨
      (s.initEventMode_ trigMode).connEvent_ = EPOLLONESHOT ||| EPOLLRDHUP ||| EPOLLET := by
  unfold initEventMode_
  simp only
  split_ifs
  · exact Or.inl rfl
  · exact Or.inr rfl
  · exact Or.inl rfl
  · exact Or.inr rfl
  · exact Or.inr rfl

/-- The masks with which `addClient_`, `onProcess_` and `onWrite_` arm a connection. -/
theorem arms_form (s : Server) (fd : Int) (io : ConnResults) (c : Call) (ev : Nat)
    (hc : c ∈ addClient_ s fd ++ onProcess_ s fd io.processed
      ++ onWrite_ s fd io.writeRet io.writeErrno io.toWriteBytes io.isKeepAlive)
    (hev : c.armsWith = some ev) :
    ev = s.connEvent_ ||| EPOLLIN ∨ ev = s.connEvent_ ||| EPOLLOUT := by
  have hmem : ev ∈ (addClient_ s fd ++ onProcess_ s fd io.processed
      ++ onWrite_ s fd io.writeRet io.writeErrno io.toWriteBytes io.isKeepAlive).filterMap
        Call.armsWith := List.mem_filterMap.mpr ⟨c, hc, hev⟩
  simp only [List.filterMap_append, List.mem_append] at hmem
  rcases hmem with (h | h) | h
  · unfold addClient_ at h
    split_ifs at h <;> simp [Call.armsWith] at h <;> left <;> rw [h, Nat.lor_comm]
  · unfold onProcess_ at h
    cases hp : io.processed <;> rw [hp] at h <;> simp [Call.armsWith] at h <;> simp [h]
  · unfold onWrite_ closeConn_ at h
    split_ifs at h <;> simp [Call.armsWith] at h <;> simp [h]

theorem rearm_counts (s : Server) (fd : Int) (io : ConnResults) :
    (onProcess_ s fd io.processed).countP Call.isRearm ≤ 1 ∧
    (onRead_ s fd io.readRet io.readErrno io.processed).countP Call.isRearm ≤ 1 ∧
    (onWrite_ s fd io.writeRet io.writeErrno io.toWriteBytes io.isKeepAlive).countP
      Call.isRearm ≤ 1 := by
  refine ⟨?_, ?_, ?_⟩
  · unfold onProcess_
    cases io.processed <;> simp [Call.isRearm, List.countP_cons]
  · unfold onRead_ onProcess_ closeConn_
    split_ifs <;> cases io.processed <;> simp [Call.isRearm, List.countP_cons]
  · unfold onWrite_ closeConn_
    split_ifs <;> simp [Call.isRearm, List.countP_cons]

/-- C24: for every trigger mode value, `connEvent_` as `initEventMode_` computes it contains
EPOLLONESHOT and EPOLLRDHUP; every mask with which `addClient_`, `onProcess_` and `onWrite_`
register or re-arm a connection is `connEvent_ | EPOLLIN` or `connEvent_ | EPOLLOUT` and so
is one-shot; and one call of `onProcess_`, `onRead_` or `onWrite_` re-arms at most once. -/
theorem connEvent_one_shot (s0 : Server) (trigMode fd : Int) (io : ConnResults) :
    hasFlag (s0.initEventMode_ trigMode).connEvent_ EPOLLONESHOT ∧
    hasFlag (s0.initEventMode_ trigMode).connEvent_ EPOLLRDHUP ∧
    (∀ c ∈ addClient_ (s0.initEventMode_ trigMode) fd
        ++ onProcess_ (s0.initEventMode_ trigMode) fd io.processed
        ++ onWrite_ (s0.initEventMode_ trigMode) fd io.writeRet io.writeErrno io.toWriteBytes
            io.isKeepAlive,
      ∀ ev, c.armsWith = some ev →
        (ev = (s0.initEventMode_ trigMode).connEvent_ ||| EPOLLIN
          ∨ ev = (s0.initEventMode_ trigMode).connEvent_ ||| EPOLLOUT)
        ∧ hasFlag ev EPOLLONESHOT) ∧
    (onProcess_ (s0.initEventMode_ trigMode) fd io.processed).countP Call.isRearm ≤ 1 ∧
    (onRead_ (s0.initEventMode_ trigMode) fd io.readRet io.readErrno io.processed).countP
      Call.isRearm ≤ 1 ∧
    (onWrite_ (s0.initEventMode_ trigMode) fd io.writeRet io.writeErrno io.toWriteBytes
      io.isKeepAlive).countP Call.isRearm ≤ 1 := by
  have hone : hasFlag (s0.initEventMode_ trigMode).connEvent_ EPOLLONESHOT := by
    rcases connEvent_cases s0 trigMode with h | h <;> rw [h] <;> decide
  have hrd : hasFlag (s0.initEventMode_ trigMode).connEvent_ EPOLLRDHUP := by
    rcases connEvent_cases s0 trigMode with h | h <;> rw [h] <;> decide
  refine ⟨hone, hrd, ?_, rearm_counts _ fd io⟩
  intro c hc ev hev
  have hform := arms_form _ fd io c ev hc hev
  refine ⟨hform, ?_⟩
  rcases hform with h | h <;> rw [h] <;> exact hasFlag_lor _ _ _ hone

theorem connEvent_one_shot_witness :
    Call.modFd 7 (levelServer.connEvent_ ||| EPOLLOUT)
        ∈ addClient_ (levelServer.initEventMode_ 0) 7
          ++ onProcess_ (levelServer.initEventMode_ 0) 7 goodRound.processed
          ++ onWrite_ (levelServer.initEventMode_ 0) 7 goodRound.writeRet goodRound.writeErrno
              goodRound.toWriteBytes goodRound.isKeepAlive ∧
      (Call.modFd 7 (levelServer.connEvent_ ||| EPOLLOUT)).armsWith
        = some (levelServer.connEvent_ ||| EPOLLOUT) ∧
      ((levelServer.connEvent_ ||| EPOLLOUT
            = (levelServer.initEventMode_ 0).connEvent_ ||| EPOLLIN
          ∨ levelServer.connEvent_ ||| EPOLLOUT
            = (levelServer.initEventMode_ 0).connEvent_ ||| EPOLLOUT)
        ∧ hasFlag (levelServer.connEvent_ ||| EPOLLOUT) EPOLLONESHOT) :=
  ⟨by decide, rfl,
    (connEvent_one_shot levelServer 0 7 goodRound).2.2.1
      (Call.modFd 7 (levelServer.connEvent_ ||| EPOLLOUT)) (by decide)
      (levelServer.connEvent_ ||| EPOLLOUT) rfl⟩

/-- The masks of the four trigger modes and of an unknown one. -/
theorem initEventMode_examples :
    (edgeServer.initEventMode_ 0).connEvent_ = 0x40002000 ∧
    (edgeServer.initEventMode_ 1).connEvent_ = 0xC0002000 ∧
    (edgeServer.initEventMode_ 2).connEvent_ = 0x40002000 ∧
    (edgeServer.initEventMode_ 3).connEvent_ = 0xC0002000 ∧
    (edgeServer.initEventMode_ (-7)).connEvent_ = 0xC0002000 := by
  decide

/-- C25: for every server, connection fd and outcome of the read, of `process()` and of the
write, a readable event handled in Proactor mode (the loop thread reads, the submitted
`onProcess_` is run) makes the same calls in the same order as in Reactor mode (the
submitted `onRead_` is run): timer adjust, read, then close or process and re-arm; and a
writable event makes in both modes the timer adjust and the calls of one `onWrite_`, the
Proactor mode submitting no task. -/
theorem modes_agree (s : Server) (fd actor : Int) (io : ConnResults) (hr : s.actor_ = 0)
    (hp : actor ≠ 0) :
    handled { s with actor_ := actor } io (dealRead_ { s with actor_ := actor } fd io)
        = handled s io (dealRead_ s fd io) ∧
    handled s io (dealRead_ s fd io)
        = extentTime_ s fd ++ onRead_ s fd io.readRet io.readErrno io.processed ∧
    handled { s with actor_ := actor } io (dealWrite_ { s with actor_ := actor } fd io)
        = handled s io (dealWrite_ s fd io) ∧
    handled s io (dealWrite_ s fd io)
        = extentTime_ s fd
          ++ onWrite_ s fd io.writeRet io.writeErrno io.toWriteBytes io.isKeepAlive ∧
    (dealWrite_ { s with actor_ := actor } fd io).tasks = [] ∧
    (dealWrite_ s fd io).tasks = [.onWrite_ fd] ∧
    (dealRead_ s fd io).tasks = [.onRead_ fd] := by
  have hread : handled s io (dealRead_ s fd io)
      = extentTime_ s fd ++ onRead_ s fd io.readRet io.readErrno io.processed := by
    unfold handled dealRead_
    rw [if_pos hr]
    simp [runTask]
  have hwrite : handled s io (dealWrite_ s fd io)
      = extentTime_ s fd
        ++ onWrite_ s fd io.writeRet io.writeErrno io.toWriteBytes io.isKeepAlive := by
    unfold handled dealWrite_
    rw [if_pos hr]
    simp [runTask]
  refine ⟨?_, hread, ?_, hwrite, ?_, ?_, ?_⟩
  · rw [hread]
    unfold handled dealRead_
    rw [if_neg (show ¬ ({ s with actor_ := actor } : Server).actor_ = 0 from hp)]
    unfold onRead_
    by_cases hbad : io.readRet ≤ 0 ∧ io.readErrno ≠ EAGAIN
    · rw [if_pos hbad, if_pos hbad]
      simp [extentTime_]
    · rw [if_neg hbad, if_neg hbad]
      simp [runTask, extentTime_, onProcess_]
  · rw [hwrite]
    unfold handled dealWrite_
    rw [if_neg (show ¬ ({ s with actor_ := actor } : Server).actor_ = 0 from hp)]
    simp [extentTime_, onWrite_]
  · unfold dealWrite_
    rw [if_neg (show ¬ ({ s with actor_ := actor } : Server).actor_ = 0 from hp)]
  · unfold dealWrite_
    rw [if_pos hr]
  · unfold dealRead_
    rw [if_pos hr]

theorem modes_agree_witness :
    edgeServer.actor_ = 0 ∧ (1 : Int) ≠ 0 ∧
      handled { edgeServer with actor_ := 1 } goodRound
          (dealRead_ { edgeServer with actor_ := 1 } 7 goodRound)
        = handled edgeServer goodRound (dealRead_ edgeServer 7 goodRound) :=
  ⟨by decide, by decide, (modes_agree edgeServer 7 1 goodRound (by decide) (by decide)).1⟩

/-- A readable event in the two modes: the loop thread and the task differ, the calls do
not. -/
theorem modes_example :
    dealRead_ edgeServer 7 goodRound
      = { calls := [.timerAdjust 7 60000], tasks := [.onRead_ 7] } ∧
    dealRead_ proactorServer 7 goodRound
      = { calls := [.timerAdjust 7 60000, .connRead 7], tasks := [.onProcess_ 7] } ∧
    handled proactorServer goodRound (dealRead_ proactorServer 7 goodRound)
      = [.timerAdjust 7 60000, .connRead 7, .connProcess 7,
          .modFd 7 (edgeServer.connEvent_ ||| EPOLLOUT)] ∧
    handled edgeServer goodRound (dealRead_ edgeServer 7 goodRound)
      = [.timerAdjust 7 60000, .connRead 7, .connProcess 7,
          .modFd 7 (edgeServer.connEvent_ ||| EPOLLOUT)] := by
  decide

end Server

/-! ## HttpResponse: an unknown preset code, and the count of mappings -/

namespace HttpResponse

/-- A code without an error page is not found in `CODE_PATH`. -/
theorem CODE_PATH_unknown (c : Int) (h0 : c ≠ 400) (h3 : c ≠ 403) (h4 : c ≠ 404) :
    CODE_PATH.lookup c = none := by
  have e0 : (c == 400) = false := beq_false_of_ne h0
  have e3 : (c == 403) = false := beq_false_of_ne h3
  have e4 : (c == 404) = false := beq_false_of_ne h4
  simp only [CODE_PATH, List.lookup, e0, e3, e4]

theorem addStateLine_unknown (r : HttpResponse) (buff : Buffer)
    (hl : CODE_STATUS.lookup r.code_ = none) :
    r.addStateLine_ buff
      = ({ r with code_ := 400 }, buff.append "HTTP/1.1 400 Bad Request\r\n".toList) := by
  unfold addStateLine_
  rw [hl]
  rfl

/-- What `makeResponse` hands to `addContent_` for an unknown preset code and a readable
regular file: the requested path, the stat of the file, the code 400, and a buffer that
holds the status line of 400 and the headers of the requested path. -/
theorem makeResponse_unknown_head (fs : FileSystem) (srcDir path : List Char) (ka : Bool)
    (c : Int) (buff : Buffer) (st : FileStat) (hb : buff.Inv) (hc1 : c ≠ -1) (h2 : c ≠ 200)
    (h0 : c ≠ 400) (h3 : c ≠ 403) (h4 : c ≠ 404)
    (hstat : fs.stat (srcDir ++ path) = some st) (hdir : S_ISDIR st.st_mode = false)
    (hread : st.st_mode &&& S_IROTH ≠ 0) :
    ∃ b4 : Buffer, b4.Inv ∧
      b4.readableData = buff.readableData ++ "HTTP/1.1 400 Bad Request\r\n".toList
        ++ connectionHeader ka
        ++ contentTypeHeader (HttpResponse.getFileType_
            { code_ := c, path_ := path, srcDir_ := srcDir, isKeepAlive_ := ka, mmFile_ := none,
              mmFileStat_ := { st_mode := 0, st_size := 0 } }) ∧
      makeResponse fs
          { code_ := c, path_ := path, srcDir_ := srcDir, isKeepAlive_ := ka, mmFile_ := none,
            mmFileStat_ := { st_mode := 0, st_size := 0 } } buff
        = addContent_ fs
            { code_ := 400, path_ := path, srcDir_ := srcDir, isKeepAlive_ := ka,
              mmFile_ := none, mmFileStat_ := st } b4 := by
  have hst := statTarget_ok fs
    { code_ := c, path_ := path, srcDir_ := srcDir, isKeepAlive_ := ka, mmFile_ := none,
      mmFileStat_ := { st_mode := 0, st_size := 0 } } st hstat hdir hread
  simp only [if_neg hc1] at hst
  have herr := errorHtml_keep fs _ (show CODE_PATH.lookup (statTarget fs _).code_ = none by
    rw [hst]; exact CODE_PATH_unknown c h0 h3 h4)
  have hsl := addStateLine_unknown (statTarget fs
    { code_ := c, path_ := path, srcDir_ := srcDir, isKeepAlive_ := ka, mmFile_ := none,
      mmFileStat_ := { st_mode := 0, st_size := 0 } }) buff
    (by rw [hst]; exact CODE_STATUS_unknown c h2 h0 h3 h4)
  have hi1 := Buffer.append_inv buff "HTTP/1.1 400 Bad Request\r\n".toList hb
  have hd1 := Buffer.append_readable buff "HTTP/1.1 400 Bad Request\r\n".toList hb
  obtain ⟨hi4, hd4⟩ := addHeader_spec
    { code_ := 400, path_ := path, srcDir_ := srcDir, isKeepAlive_ := ka, mmFile_ := none,
      mmFileStat_ := st } _ hi1
  refine ⟨_, hi4, ?_, ?_⟩
  · rw [hd4, hd1, ← List.append_assoc]
    rfl
  · unfold makeResponse
    simp only [herr, hsl]
    rw [hst]

/-- C26, as the source has it: `/index.html` exists, is a regular file of 11 bytes and is
world-readable, the preset code is 500, and the open fails. The claim promises
`Content-length: 11` and the mapped file; the source writes the status line of 400, the
type of the requested path, `Content-length: 125` and the inline error page, and holds no
mapping. -/
theorem unknown_code_open_fails_counterexample :
    unopenableFiles.stat "/srv/index.html".toList = some { st_mode := 0o100644, st_size := 11 } ∧
    S_ISDIR 0o100644 = false ∧ (0o100644 : Nat) &&& S_IROTH ≠ 0 ∧
    written (makeResponse unopenableFiles (request "/srv" "/index.html" false 500)
        (Buffer.new 64))
      = some ("HTTP/1.1 400 Bad Request\r\n".toList ++ connectionHeader false
          ++ contentTypeHeader "text/html".toList ++ contentLengthHeader 125
          ++ inlineErrorPage 400 "Bad Request".toList) ∧
    written (makeResponse unopenableFiles (request "/srv" "/index.html" false 500)
        (Buffer.new 64))
      ≠ some ("HTTP/1.1 400 Bad Request\r\n".toList ++ connectionHeader false
          ++ contentTypeHeader "text/html".toList ++ contentLengthHeader 11) ∧
    held (makeResponse unopenableFiles (request "/srv" "/index.html" false 500)
        (Buffer.new 64)) = some none := by
  decide

/-- The mapping test of `addContent_` takes a mapping whose first `int` is -1 for a failed
one: the inline error page is written and the response keeps no mapping. -/
theorem addContent_minus_one (fs : FileSystem) (r : HttpResponse) (buff : Buffer) (fd : Nat)
    (region : List Char) (hopen : fs.open_ (r.srcDir_ ++ r.path_) = some fd)
    (hmap : fs.mmap fd r.mmFileStat_.st_size = .mapped region)
    (hword : derefIsMinusOne region = true) :
    addContent_ fs r buff = some (r, r.errorContent buff "File Not Found!".toList) := by
  unfold addContent_
  rw [hopen]
  simp only
  rw [hmap]
  simp only [hword, if_true]

/-- C26, amended: for a preset code outside {-1, 200, 400, 403, 404} and a path whose file
exists, is not a directory and is world-readable, in three cases. When the file opens and
maps with a first `int` other than -1, `makeResponse` writes the status line of 400, does
not retarget to `/400.html`, and the Content-type, the Content-length and the mapped body
are those of the requested file. When the file cannot be opened, `makeResponse` writes the
status line of 400, does not retarget, writes the Content-type of the requested path and,
as the body, the inline page of 400 with its own Content-length, and holds no mapping.
When the file opens and maps, whatever its first `int`, the reply begins with the status
line of 400, the connection header and the Content-type of the requested path, and the
path is not retargeted. Nothing is stated for a file whose mmap fails. -/
theorem makeResponse_unknown_code (fs : FileSystem) (r0 : HttpResponse) (srcDir path : List Char)
    (ka : Bool) (c : Int) (buff : Buffer) (st : FileStat) (hb : buff.Inv) (hc1 : c ≠ -1)
    (h2 : c ≠ 200) (h0 : c ≠ 400) (h3 : c ≠ 403) (h4 : c ≠ 404)
    (hstat : fs.stat (srcDir ++ path) = some st) (hdir : S_ISDIR st.st_mode = false)
    (hread : st.st_mode &&& S_IROTH ≠ 0) :
    (∀ fd region, fs.open_ (srcDir ++ path) = some fd →
      fs.mmap fd st.st_size = .mapped region → derefIsMinusOne region = false →
      ∃ r' b', makeResponse fs (r0.init srcDir path ka c) buff = some (r', b') ∧
        r'.code_ = 400 ∧ r'.path_ = path ∧
        b'.readableData = buff.readableData ++ "HTTP/1.1 400 Bad Request\r\n".toList
          ++ connectionHeader ka
          ++ contentTypeHeader (r0.init srcDir path ka c).getFileType_
          ++ contentLengthHeader st.st_size ∧
        r'.fileLen = st.st_size ∧ r'.file = some region) ∧
    (fs.open_ (srcDir ++ path) = none →
      ∃ r' b', makeResponse fs (r0.init srcDir path ka c) buff = some (r', b') ∧
        r'.code_ = 400 ∧ r'.path_ = path ∧
        b'.readableData = buff.readableData ++ "HTTP/1.1 400 Bad Request\r\n".toList
          ++ connectionHeader ka
          ++ contentTypeHeader (r0.init srcDir path ka c).getFileType_
          ++ contentLengthHeader (inlineErrorPage 400 "Bad Request".toList).length
          ++ inlineErrorPage 400 "Bad Request".toList ∧
        r'.file = none) ∧
    (∀ fd region, fs.open_ (srcDir ++ path) = some fd →
      fs.mmap fd st.st_size = .mapped region →
      ∃ r' b' rest, makeResponse fs (r0.init srcDir path ka c) buff = some (r', b') ∧
        r'.code_ = 400 ∧ r'.path_ = path ∧
        b'.readableData = buff.readableData ++ "HTTP/1.1 400 Bad Request\r\n".toList
          ++ connectionHeader ka
          ++ contentTypeHeader (r0.init srcDir path ka c).getFileType_ ++ rest) := by
  rw [init_eq]
  obtain ⟨b4, hi4, hd4, hmk⟩ :=
    makeResponse_unknown_head fs srcDir path ka c buff st hb hc1 h2 h0 h3 h4 hstat hdir hread
  refine ⟨?_, ?_, ?_⟩
  · intro fd region hopen hmap hword
    refine ⟨_, _, hmk.trans (addContent_mapped fs _ b4 fd region hopen hmap hword),
      rfl, rfl, ?_, rfl, rfl⟩
    rw [Buffer.append_readable _ _ hi4, hd4]
  · intro hopen
    refine ⟨_, _, hmk.trans (addContent_open_fails fs _ b4 hopen), rfl, rfl, ?_, rfl⟩
    rw [(errorContent_spec _ b4 _ hi4).2, hd4, errorBody_eq 400 "Bad Request".toList rfl]
    simp only [List.append_assoc]
  · intro fd region hopen hmap
    cases hword : derefIsMinusOne region with
    | false =>
      refine ⟨_, _, contentLengthHeader st.st_size,
        hmk.trans (addContent_mapped fs _ b4 fd region hopen hmap hword), rfl, rfl, ?_⟩
      rw [Buffer.append_readable _ _ hi4, hd4]
    | true =>
      refine ⟨_, _,
        contentLengthHeader (errorBody 400 "File Not Found!".toList).length
          ++ errorBody 400 "File Not Found!".toList,
        hmk.trans (addContent_minus_one fs _ b4 fd region hopen hmap hword), rfl, rfl, ?_⟩
      rw [(errorContent_spec _ b4 _ hi4).2, hd4]

theorem makeResponse_unknown_code_witness :
    ((Buffer.new 64).Inv ∧
      siteFiles.stat ("/srv".toList ++ "/index.html".toList)
        = some { st_mode := 0o100644, st_size := 11 } ∧
      siteFiles.open_ ("/srv".toList ++ "/index.html".toList) = some 3 ∧
      siteFiles.mmap 3 11 = .mapped "<h1>hi</h1>".toList ∧
      derefIsMinusOne "<h1>hi</h1>".toList = false ∧
      ∃ r' b', makeResponse siteFiles
          (HttpResponse.new.init "/srv".toList "/index.html".toList false 500) (Buffer.new 64)
            = some (r', b') ∧
        r'.code_ = 400 ∧ r'.path_ = "/index.html".toList ∧
        b'.readableData = (Buffer.new 64).readableData ++ "HTTP/1.1 400 Bad Request\r\n".toList
          ++ connectionHeader false
          ++ contentTypeHeader
              (HttpResponse.new.init "/srv".toList "/index.html".toList false 500).getFileType_
          ++ contentLengthHeader 11 ∧
        r'.fileLen = 11 ∧ r'.file = some "<h1>hi</h1>".toList) ∧
    (siteFiles.stat ("/srv".toList ++ "/blob.bin".toList)
        = some { st_mode := 0o100644, st_size := 8 } ∧
      siteFiles.open_ ("/srv".toList ++ "/blob.bin".toList) = some 5 ∧
      siteFiles.mmap 5 8 = .mapped (onesThenText "data".toList) ∧
      derefIsMinusOne (onesThenText "data".toList) = true ∧
      ∃ r' b' rest, makeResponse siteFiles
          (HttpResponse.new.init "/srv".toList "/blob.bin".toList false 500) (Buffer.new 64)
            = some (r', b') ∧
        r'.code_ = 400 ∧ r'.path_ = "/blob.bin".toList ∧
        b'.readableData = (Buffer.new 64).readableData ++ "HTTP/1.1 400 Bad Request\r\n".toList
          ++ connectionHeader false
          ++ contentTypeHeader
              (HttpResponse.new.init "/srv".toList "/blob.bin".toList false 500).getFileType_
          ++ rest) :=
  ⟨⟨by decide, by decide, by decide, by decide, by decide,
    (makeResponse_unknown_code siteFiles HttpResponse.new "/srv".toList "/index.html".toList
      false 500 (Buffer.new 64) { st_mode := 0o100644, st_size := 11 } (by decide) (by decide)
      (by decide) (by decide) (by decide) (by decide) (by decide) (by decide) (by decide)).1
      3 "<h1>hi</h1>".toList (by decide) (by decide) (by decide)⟩,
   ⟨by decide, by decide, by decide, by decide,
    (makeResponse_unknown_code siteFiles HttpResponse.new "/srv".toList "/blob.bin".toList
      false 500 (Buffer.new 64) { st_mode := 0o100644, st_size := 8 } (by decide) (by decide)
      (by decide) (by decide) (by decide) (by decide) (by decide) (by decide) (by decide)).2.2
      5 (onesThenText "data".toList) (by decide) (by decide)⟩⟩

/-- An unknown preset code on a file that maps: the line of 400, the head and the body of
the requested file, and no retarget. -/
theorem unknown_code_example :
    written (makeResponse siteFiles (request "/srv" "/index.html" false 500) (Buffer.new 64))
      = some ("HTTP/1.1 400 Bad Request\r\nConnection: close\r\n".toList
          ++ "Content-type: text/html\r\nContent-length: 11\r\n\r\n".toList) ∧
    held (makeResponse siteFiles (request "/srv" "/index.html" false 500) (Buffer.new 64))
      = some (some "<h1>hi</h1>".toList) := by
  decide

end HttpResponse

/-! ## HttpResponse: the mappings a response makes and releases -/

namespace HttpResponse

/-- The methods `unmapFile` and `init` leave `file()` null, and a second `unmapFile` changes
nothing and makes no `munmap` call. -/
theorem unmapFile_idempotent (r : HttpResponse) (srcDir path : List Char) (ka : Bool)
    (code : Int) :
    r.unmapFile.file = none ∧ (r.init srcDir path ka code).file = none ∧
      r.unmapFile.unmapFile = r.unmapFile ∧ r.unmapFile.munmapCalls = 0 ∧
      r.munmapCalls ≤ 1 := by
  have hnone : r.unmapFile.mmFile_ = none := by
    unfold unmapFile
    cases h : r.mmFile_ with
    | none => simp only; exact h
    | some m => rfl
  have hkeep : ∀ q : HttpResponse, q.mmFile_ = none → q.unmapFile = q := by
    intro q hq
    unfold unmapFile
    rw [hq]
  refine ⟨hnone, ?_, hkeep _ hnone, ?_, ?_⟩
  · rw [init_eq]; rfl
  · unfold munmapCalls
    rw [hnone]; rfl
  · unfold munmapCalls
    split_ifs <;> omega

theorem addStateLine_mmFile (r : HttpResponse) (buff : Buffer) :
    (r.addStateLine_ buff).1.mmFile_ = r.mmFile_ := by
  unfold addStateLine_
  cases CODE_STATUS.lookup r.code_ <;> rfl

/-- When no mapping reads as -1, the mappings `addContent_` makes on a response that holds
none are the mappings it holds afterwards. -/
theorem addContent_account (fs : FileSystem) (r r' : HttpResponse) (buff b' : Buffer)
    (hsane : ∀ fd len region, fs.mmap fd len = .mapped region → derefIsMinusOne region = false)
    (hnone : r.mmFile_ = none) (h : addContent_ fs r buff = some (r', b')) :
    addContent_mmaps fs r = r'.munmapCalls := by
  unfold addContent_ at h
  unfold addContent_mmaps
  cases ho : fs.open_ (r.srcDir_ ++ r.path_) with
  | none =>
    rw [ho] at h
    simp only [Option.some.injEq, Prod.mk.injEq] at h
    rw [← h.1]
    unfold munmapCalls
    rw [hnone]; rfl
  | some fd =>
    rw [ho] at h
    simp only at h ⊢
    cases hm : fs.mmap fd r.mmFileStat_.st_size with
    | MAP_FAILED =>
      rw [hm] at h
      cases h
    | mapped region =>
      rw [hm] at h
      simp only [hsane fd _ region hm, Bool.false_eq_true, if_false, Option.some.injEq,
        Prod.mk.injEq] at h
      rw [← h.1]
      rfl

theorem makeResponse_account (fs : FileSystem) (r r' : HttpResponse) (buff b' : Buffer)
    (hsane : ∀ fd len region, fs.mmap fd len = .mapped region → derefIsMinusOne region = false)
    (hnone : r.mmFile_ = none) (h : makeResponse fs r buff = some (r', b')) :
    makeResponse_mmaps fs r buff = r'.munmapCalls := by
  unfold makeResponse_mmaps
  unfold makeResponse at h
  simp only at h
  refine addContent_account fs _ r' _ b' hsane ?_ h
  rw [addStateLine_mmFile, (errorHtml_frame fs _).2.2.2, (statTarget_frame fs r).2.2.2, hnone]

end HttpResponse

namespace Tracked

/-- When no mapping reads as -1, a run in which every `makeResponse` follows an `init` keeps
the mappings made equal to the `munmap` calls plus the mapping held. -/
theorem run_account (fs : FileSystem)
    (hsane : ∀ fd len region, fs.mmap fd len = .mapped region → derefIsMinusOne region = false)
    (ops : List ResponseOp) : ∀ (t t' : Tracked) (ready : Bool),
      initFirst ready ops = true → (ready = true → t.resp.mmFile_ = none) →
      t.mmaps = t.munmaps + t.resp.munmapCalls → t.run fs ops = some t' →
      t'.mmaps = t'.munmaps + t'.resp.munmapCalls := by
  induction ops with
  | nil =>
    intro t t' ready _ _ hacc hrun
    simp only [run, Option.some.injEq] at hrun
    rw [← hrun]; exact hacc
  | cons op ops ih =>
    intro t t' ready hwf hready hacc hrun
    cases op with
    | init srcDir path ka code =>
      simp only [run, step] at hrun
      simp only [initFirst] at hwf
      refine ih _ t' true hwf (fun _ => ?_) ?_ hrun
      · exact (HttpResponse.unmapFile_idempotent t.resp srcDir path ka code).2.1
      · have h0 : (t.resp.init srcDir path ka code).munmapCalls = 0 := by
          unfold HttpResponse.munmapCalls
          rw [show (t.resp.init srcDir path ka code).mmFile_ = none from
            (HttpResponse.unmapFile_idempotent t.resp srcDir path ka code).2.1]
          rfl
        simp only [h0]
        omega
    | unmapFile =>
      simp only [run, step] at hrun
      simp only [initFirst] at hwf
      have hn := (HttpResponse.unmapFile_idempotent t.resp [] [] false 0).1
      refine ih _ t' ready hwf (fun _ => hn) ?_ hrun
      have h0 := (HttpResponse.unmapFile_idempotent t.resp [] [] false 0).2.2.2.1
      simp only [h0]
      omega
    | makeResponse =>
      simp only [initFirst, Bool.and_eq_true] at hwf
      have hnone := hready hwf.1
      simp only [run, step] at hrun
      cases hm : HttpResponse.makeResponse fs t.resp t.buff with
      | none =>
        rw [hm] at hrun
        cases hrun
      | some out =>
        obtain ⟨r, b⟩ := out
        rw [hm] at hrun
        simp only at hrun
        refine ih _ t' false hwf.2 (fun h => absurd h (by decide)) ?_ hrun
        simp only
        rw [HttpResponse.makeResponse_account fs t.resp r t.buff b hsane hnone hm]
        have hz : t.resp.munmapCalls = 0 := by
          unfold HttpResponse.munmapCalls
          rw [hnone]; rfl
        omega

/-- The count that C23 bounds, when no mapping reads as -1: over every run from a fresh
response in which each `makeResponse` follows an `init`, at most one mapping is live. -/
theorem live_le_one (fs : FileSystem)
    (hsane : ∀ fd len region, fs.mmap fd len = .mapped region → derefIsMinusOne region = false)
    (n : Nat) (ops : List ResponseOp) (t : Tracked) (hwf : initFirst false ops = true)
    (hrun : (fresh n).run fs ops = some t) : 0 ≤ t.live ∧ t.live ≤ 1 := by
  have h := run_account fs hsane ops (fresh n) t false hwf (fun h => absurd h (by decide))
    rfl hrun
  have h1 := (HttpResponse.unmapFile_idempotent t.resp [] [] false 0).2.2.2.2
  unfold live
  omega

/-- C23 at a failing input: `/blob.bin` maps, with 0xFF in its first four bytes. Each
`makeResponse`, preceded by its `init`, makes a mapping that the source takes for a failed
one and does not keep in `mmFile_`; `init` finds `mmFile_` null and unmaps nothing. After two
requests two mappings are live (two made, none released), where the claim allows one. -/
theorem live_mappings_leak :
    initFirst false
        [ .init "/srv".toList "/blob.bin".toList false 200, .makeResponse,
          .init "/srv".toList "/blob.bin".toList false 200, .makeResponse ] = true ∧
    ((fresh 64).run siteFiles
        [ .init "/srv".toList "/blob.bin".toList false 200, .makeResponse,
          .init "/srv".toList "/blob.bin".toList false 200, .makeResponse ]).map
      (fun t => (t.mmaps, t.munmaps, t.live, t.resp.file)) = some (2, 0, 2, none) := by
  decide

/-- Two requests for a file whose mapping is kept: the second `init` releases the first
mapping, and one mapping is live at the end. -/
theorem live_mappings_example :
    ((fresh 64).run siteFiles
        [ .init "/srv".toList "/index.html".toList true 200, .makeResponse,
          .init "/srv".toList "/index.html".toList true 200, .makeResponse ]).map
      (fun t => (t.mmaps, t.munmaps, t.live)) = some (2, 1, 1) ∧
    ((fresh 64).run siteFiles
        [ .init "/srv".toList "/index.html".toList true 200, .makeResponse, .unmapFile,
          .unmapFile ]).map
      (fun t => (t.mmaps, t.munmaps, t.live, t.resp.file)) = some (1, 1, 0, none) := by
  decide

end Tracked

/-! ## One connection between the loop thread and the workers: lemmas -/

namespace ConnSystem

theorem apply_frame (s : ConnSystem) (c : Call) :
    (s.apply c).server = s.server ∧ (s.apply c).fd = s.fd ∧ (s.apply c).queue = s.queue ∧
      (s.apply c).inHandler = s.inHandler ∧ (s.apply c).overlap = s.overlap := by
  cases c <;> exact ⟨rfl, rfl, rfl, rfl, rfl⟩

theorem applyAll_frame (s : ConnSystem) (calls : List Call) :
    (s.applyAll calls).server = s.server ∧ (s.applyAll calls).fd = s.fd ∧
      (s.applyAll calls).queue = s.queue ∧ (s.applyAll calls).inHandler = s.inHandler ∧
      (s.applyAll calls).overlap = s.overlap := by
  induction calls generalizing s with
  | nil => exact ⟨rfl, rfl, rfl, rfl, rfl⟩
  | cons c cs ih =>
    obtain ⟨h1, h2, h3, h4, h5⟩ := ih (s.apply c)
    obtain ⟨g1, g2, g3, g4, g5⟩ := apply_frame s c
    simp only [applyAll, List.foldl_cons] at h1 h2 h3 h4 h5 ⊢
    exact ⟨h1.trans g1, h2.trans g2, h3.trans g3, h4.trans g4, h5.trans g5⟩

/-- Calls that do not arm leave a disarmed fd disarmed. -/
theorem applyAll_disarmed (s : ConnSystem) (calls : List Call)
    (hc : ∀ c ∈ calls, c.armsWith = none) (h : s.mux.armed = false) :
    (s.applyAll calls).mux.armed = false := by
  induction calls generalizing s with
  | nil => exact h
  | cons c cs ih =>
    simp only [applyAll, List.foldl_cons]
    apply ih
    · intro c' hc'
      exact hc c' (List.mem_cons_of_mem _ hc')
    · have h0 := hc c (List.mem_cons_self _ _)
      cases c <;> first | exact h | rfl | (simp [Call.armsWith] at h0)

/-- Calls that arm one-shot only leave the fd disarmed or armed one-shot. -/
theorem applyAll_one_shot (s : ConnSystem) (calls : List Call)
    (hc : ∀ c ∈ calls, ∀ ev, c.armsWith = some ev → ev &&& EPOLLONESHOT ≠ 0)
    (h : s.mux.armed = true → s.mux.events &&& EPOLLONESHOT ≠ 0) :
    (s.applyAll calls).mux.armed = true →
      (s.applyAll calls).mux.events &&& EPOLLONESHOT ≠ 0 := by
  induction calls generalizing s with
  | nil => exact h
  | cons c cs ih =>
    simp only [applyAll, List.foldl_cons]
    apply ih
    · intro c' hc'
      exact hc c' (List.mem_cons_of_mem _ hc')
    · have h0 := hc c (List.mem_cons_self _ _)
      cases c with
      | addFd fd ev =>
        intro _
        exact h0 ev rfl
      | modFd fd ev =>
        simp only [apply, Mux.mod]
        split_ifs with hr
        · intro _
          exact h0 ev rfl
        · exact h
      | delFd fd =>
        intro ha
        simp [apply, Mux.del] at ha
      | _ => exact h

theorem fire_disarms (m : Mux) (h : m.armed = true → m.events &&& EPOLLONESHOT ≠ 0) :
    m.fire.armed = false := by
  unfold Mux.fire
  split_ifs with h1
  · rfl
  · cases ha : m.armed with
    | false => rfl
    | true => exact absurd (h ha) h1

theorem reports_armed (m : Mux) (flag : Nat) (h : m.reports flag = true) : m.armed = true := by
  unfold Mux.reports at h
  simp only [Bool.and_eq_true] at h
  exact h.1

theorem closeConn_no_arm (fd : Int) : ∀ c ∈ Server.closeConn_ fd, c.armsWith = none := by
  intro c hc
  simp only [Server.closeConn_, List.mem_cons, List.mem_singleton, List.not_mem_nil,
    or_false] at hc
  rcases hc with rfl | rfl <;> rfl

theorem extentTime_no_arm (s : Server) (fd : Int) :
    ∀ c ∈ Server.extentTime_ s fd, c.armsWith = none := by
  intro c hc
  unfold Server.extentTime_ at hc
  split_ifs at hc
  · simp only [List.mem_singleton] at hc
    subst hc
    rfl
  · simp at hc

theorem dealRead_no_arm (s : Server) (fd : Int) (io : ConnResults) :
    ∀ c ∈ (Server.dealRead_ s fd io).calls, c.armsWith = none := by
  intro c hc
  unfold Server.dealRead_ at hc
  split_ifs at hc
  · exact extentTime_no_arm s fd c hc
  · simp only [List.mem_append, List.mem_singleton] at hc
    rcases hc with (hc | rfl) | hc
    · exact extentTime_no_arm s fd c hc
    · rfl
    · exact closeConn_no_arm fd c hc
  · simp only [List.mem_append, List.mem_singleton] at hc
    rcases hc with hc | rfl
    · exact extentTime_no_arm s fd c hc
    · rfl

theorem dealRead_tasks (s : Server) (fd : Int) (io : ConnResults) :
    (Server.dealRead_ s fd io).tasks.length ≤ 1 := by
  unfold Server.dealRead_
  split_ifs <;> simp

theorem dealWrite_tasks (s : Server) (fd : Int) (io : ConnResults) :
    (Server.dealWrite_ s fd io).tasks.length ≤ 1 ∧
      ((Server.dealWrite_ s fd io).tasks = [] ∨
        ∀ c ∈ (Server.dealWrite_ s fd io).calls, c.armsWith = none) := by
  unfold Server.dealWrite_
  split_ifs
  · exact ⟨by simp, Or.inr (extentTime_no_arm s fd)⟩
  · exact ⟨by simp, Or.inl rfl⟩

theorem one_shot_mask (s : Server) (x : Nat) (h : hasFlag s.connEvent_ EPOLLONESHOT) :
    (s.connEvent_ ||| x) &&& EPOLLONESHOT ≠ 0 :=
  Server.hasFlag_lor _ _ _ h

theorem onProcess_one_shot (s : Server) (fd : Int) (processed : Bool)
    (h : hasFlag s.connEvent_ EPOLLONESHOT) :
    ∀ c ∈ Server.onProcess_ s fd processed, ∀ ev, c.armsWith = some ev →
      ev &&& EPOLLONESHOT ≠ 0 := by
  intro c hc ev hev
  unfold Server.onProcess_ at hc
  split_ifs at hc <;>
    simp only [List.mem_cons, List.mem_singleton, List.not_mem_nil, or_false] at hc <;>
    rcases hc with rfl | rfl <;>
    simp only [Call.armsWith, Option.some.injEq, reduceCtorEq] at hev <;>
    subst hev <;> exact one_shot_mask s _ h

theorem closeConn_one_shot (fd : Int) :
    ∀ c ∈ Server.closeConn_ fd, ∀ ev, c.armsWith = some ev → ev &&& EPOLLONESHOT ≠ 0 := by
  intro c hc ev hev
  rw [closeConn_no_arm fd c hc] at hev
  cases hev

theorem onWrite_one_shot (s : Server) (fd : Int) (ret writeErrno : Int) (toWriteBytes : Nat)
    (isKeepAlive : Bool) (h : hasFlag s.connEvent_ EPOLLONESHOT) :
    ∀ c ∈ Server.onWrite_ s fd ret writeErrno toWriteBytes isKeepAlive, ∀ ev,
      c.armsWith = some ev → ev &&& EPOLLONESHOT ≠ 0 := by
  intro c hc ev hev
  unfold Server.onWrite_ at hc
  rw [List.mem_cons] at hc
  rcases hc with rfl | hc
  · cases hev
  · split_ifs at hc
    all_goals first
      | exact closeConn_one_shot fd c hc ev hev
      | (simp only [List.mem_singleton] at hc
         subst hc
         simp only [Call.armsWith, Option.some.injEq] at hev
         subst hev
         exact one_shot_mask s _ h)

theorem runTask_one_shot (s : Server) (io : ConnResults) (task : Task)
    (h : hasFlag s.connEvent_ EPOLLONESHOT) :
    ∀ c ∈ Server.runTask s io task, ∀ ev, c.armsWith = some ev → ev &&& EPOLLONESHOT ≠ 0 := by
  cases task with
  | onRead_ fd =>
    intro c hc ev hev
    simp only [Server.runTask, Server.onRead_, List.mem_cons] at hc
    rcases hc with rfl | hc
    · cases hev
    · split_ifs at hc
      · exact closeConn_one_shot fd c hc ev hev
      · exact onProcess_one_shot s fd _ h c hc ev hev
  | onProcess_ fd => exact onProcess_one_shot s fd _ h
  | onWrite_ fd => exact onWrite_one_shot s fd _ _ _ _ h

theorem dealWrite_one_shot (s : Server) (fd : Int) (io : ConnResults)
    (h : hasFlag s.connEvent_ EPOLLONESHOT) :
    ∀ c ∈ (Server.dealWrite_ s fd io).calls, ∀ ev, c.armsWith = some ev →
      ev &&& EPOLLONESHOT ≠ 0 := by
  intro c hc ev hev
  unfold Server.dealWrite_ at hc
  split_ifs at hc
  · rw [extentTime_no_arm s fd c hc] at hev
    cases hev
  · simp only [List.mem_append] at hc
    rcases hc with hc | hc
    · rw [extentTime_no_arm s fd c hc] at hev
      cases hev
    · exact onWrite_one_shot s fd _ _ _ _ h c hc ev hev

theorem step_server (s : ConnSystem) (e : ConnEvent) : (s.step e).server = s.server := by
  cases e with
  | elapse ms => rfl
  | tick =>
    simp only [step]
    split_ifs
    · exact (applyAll_frame _ _).1
    · rfl
  | hangup =>
    simp only [step]
    split_ifs
    · exact (applyAll_frame _ _).1
    · rfl
  | readable io =>
    simp only [step]
    split_ifs
    · exact (applyAll_frame _ _).1
    · rfl
  | writable io =>
    simp only [step]
    split_ifs
    · exact (applyAll_frame _ _).1
    · rfl
  | workerStart i =>
    simp only [step]
    split
    · rfl
    · split_ifs <;> rfl
  | workerFinish i io =>
    simp only [step]
    split
    · rfl
    · exact (applyAll_frame _ _).1

/-- The loop thread makes the calls of a handler while no worker is inside one: the record
of overlaps, the queue and the workers stay as they are. -/
theorem onLoop_frame (s : ConnSystem) (calls : List Call) (h : s.inHandler = []) :
    (s.onLoop calls).overlap = s.overlap ∧ (s.onLoop calls).queue = s.queue ∧
      (s.onLoop calls).inHandler = [] := by
  unfold onLoop
  obtain ⟨_, _, h3, h4, h5⟩ := applyAll_frame
    { s with overlap := s.overlap || (calls.any Call.ofHandler && !s.inHandler.isEmpty) } calls
  refine ⟨?_, h3, ?_⟩
  · rw [h5]
    simp [h]
  · rw [h4]
    exact h

theorem onLoop_mux (s : ConnSystem) (calls : List Call) :
    (s.onLoop calls).mux = (s.applyAll calls).mux := by
  unfold onLoop applyAll
  generalize (s.overlap || (calls.any Call.ofHandler && !s.inHandler.isEmpty)) = b
  induction calls generalizing s with
  | nil => rfl
  | cons c cs ih =>
    simp only [List.foldl_cons]
    have h1 : ({ s with overlap := b } : ConnSystem).apply c
        = { s.apply c with overlap := b } := by
      cases c <;> rfl
    rw [h1]
    exact ih (s.apply c)

theorem lookup_single (l : List (Nat × Task)) (i : Nat) (task : Task) (hl : l.length ≤ 1)
    (h : l.lookup i = some task) : l.filter (fun p => p.1 != i) = [] := by
  match l, hl, h with
  | [(j, t)], _, h =>
    simp only [List.lookup] at h
    by_cases hij : i = j
    · subst hij
      simp
    · have : (i == j) = false := by simpa using hij
      rw [this] at h
      cases h

/-- One step keeps the connection exclusive, when its arming mask is one-shot and the step
is not the expiry of its timer entry. -/
theorem step_exclusive (s : ConnSystem) (e : ConnEvent)
    (hone : hasFlag s.server.connEvent_ EPOLLONESHOT)
    (hno : s.server.timeoutMS_ ≤ 0 ∨ e ≠ .tick) (h : s.Exclusive) : (s.step e).Exclusive := by
  obtain ⟨hov, hlen, harm⟩ := h
  cases e with
  | elapse ms => exact ⟨hov, hlen, harm⟩
  | tick =>
    rcases hno with hno | hno
    · simp only [step]
      rw [if_neg (fun hc => absurd hc.1 (not_lt.mpr hno))]
      exact ⟨hov, hlen, harm⟩
    · exact absurd rfl hno
  | hangup =>
    simp only [step]
    split_ifs with ha
    · obtain ⟨hq, hin, hev⟩ := harm ha
      obtain ⟨f1, f2, f3⟩ := onLoop_frame { s with mux := s.mux.fire }
        (Server.closeConn_ s.fd) hin
      have hoff : (onLoop { s with mux := s.mux.fire } (Server.closeConn_ s.fd)).mux.armed
          = false := by
        rw [onLoop_mux]
        exact applyAll_disarmed _ _ (closeConn_no_arm s.fd) (fire_disarms s.mux (fun _ => hev))
      refine ⟨f1.trans hov, ?_, ?_⟩
      · rw [f2, f3]
        simp [hq]
      · intro hc
        rw [hoff] at hc
        cases hc
    · exact ⟨hov, hlen, harm⟩
  | readable io =>
    simp only [step]
    split_ifs with ha
    · obtain ⟨hq, hin, hev⟩ := harm (reports_armed _ _ ha)
      obtain ⟨f1, f2, f3⟩ := onLoop_frame { s with mux := s.mux.fire }
        (Server.dealRead_ s.server s.fd io).calls hin
      have hoff : (onLoop { s with mux := s.mux.fire }
          (Server.dealRead_ s.server s.fd io).calls).mux.armed = false := by
        rw [onLoop_mux]
        exact applyAll_disarmed _ _ (dealRead_no_arm s.server s.fd io)
          (fire_disarms s.mux (fun _ => hev))
      have f2' := f2.trans hq
      refine ⟨f1.trans hov, ?_, ?_⟩
      · show List.length (_ ++ _) + _ ≤ 1
        rw [f2', f3]
        exact dealRead_tasks s.server s.fd io
      · intro hc
        rw [hoff] at hc
        cases hc
    · exact ⟨hov, hlen, harm⟩
  | writable io =>
    simp only [step]
    split_ifs with ha
    · obtain ⟨hq, hin, hev⟩ := harm (reports_armed _ _ ha)
      obtain ⟨f1, f2, f3⟩ := onLoop_frame { s with mux := s.mux.fire }
        (Server.dealWrite_ s.server s.fd io).calls hin
      obtain ⟨t1, t2⟩ := dealWrite_tasks s.server s.fd io
      have f2' := f2.trans hq
      refine ⟨f1.trans hov, ?_, ?_⟩
      · show List.length (_ ++ _) + _ ≤ 1
        rw [f2', f3]
        exact t1
      · intro hc
        simp only [onLoop_mux] at hc ⊢
        rcases t2 with t2 | t2
        · refine ⟨?_, f3, ?_⟩
          · show _ ++ _ = []
            rw [f2', t2]
            rfl
          · exact applyAll_one_shot _ _ (dealWrite_one_shot s.server s.fd io hone)
              (fun hf => by
                rw [fire_disarms s.mux (fun _ => hev)] at hf
                cases hf) hc
        · rw [applyAll_disarmed _ _ t2 (fire_disarms s.mux (fun _ => hev))] at hc
          cases hc
    · exact ⟨hov, hlen, harm⟩
  | workerStart i =>
    simp only [step]
    cases hq : s.queue with
    | nil =>
      simp only
      exact ⟨hov, hlen, harm⟩
    | cons task rest =>
      rw [hq] at hlen
      simp only [List.length_cons] at hlen
      have hrest : rest = [] := List.length_eq_zero.mp (by omega)
      have hin : s.inHandler = [] := List.length_eq_zero.mp (by omega)
      simp only [hin, List.lookup, Option.isSome_none, Bool.false_eq_true, if_false,
        List.isEmpty_nil, Bool.not_true, Bool.or_false]
      refine ⟨hov, ?_, ?_⟩
      · simp [hrest]
      · intro hc
        have := (harm hc).1
        rw [hq] at this
        cases this
  | workerFinish i io =>
    simp only [step]
    cases hl : s.inHandler.lookup i with
    | none =>
      simp only
      exact ⟨hov, hlen, harm⟩
    | some task =>
      simp only
      have hne : s.inHandler ≠ [] := by
        intro h0
        rw [h0] at hl
        cases hl
      have hpos : 0 < s.inHandler.length := List.length_pos.mpr hne
      have hq : s.queue = [] := List.length_eq_zero.mp (by omega)
      have hfil := lookup_single s.inHandler i task (by omega) hl
      obtain ⟨_, _, g3, g4, g5⟩ := applyAll_frame
        { s with inHandler := s.inHandler.filter (fun p => p.1 != i) }
        (Server.runTask s.server io task)
      have hoff : s.mux.armed = false := by
        cases ha : s.mux.armed with
        | false => rfl
        | true => exact absurd (harm ha).2.1 hne
      refine ⟨g5.trans hov, ?_, ?_⟩
      · rw [g3, g4]
        simp [hq, hfil]
      · intro hc
        refine ⟨g3.trans hq, g4.trans hfil, ?_⟩
        exact applyAll_one_shot _ _ (runTask_one_shot s.server io task hone)
          (fun hf => by
            rw [hoff] at hf
            cases hf) hc

theorem accepted_exclusive (server : Server) (fd : Int)
    (hone : hasFlag server.connEvent_ EPOLLONESHOT) :
    (accepted server fd).Exclusive ∧ (accepted server fd).server = server := by
  have hmask : (EPOLLIN ||| server.connEvent_) &&& EPOLLONESHOT ≠ 0 := by
    rw [Nat.lor_comm]
    exact one_shot_mask server _ hone
  unfold accepted Server.addClient_
  split_ifs <;> exact ⟨⟨rfl, by simp [applyAll, apply], fun _ => ⟨rfl, rfl, hmask⟩⟩, rfl⟩

/-- One-shot arming keeps the handlers of a connection apart as long as its timer entry does
not expire: from the accepted connection, over every order of reports of the mux, worker
starts and worker returns, and of timer ticks when the server has no timeout, no two
threads are inside a handler for the fd at the same time. -/
theorem run_exclusive (server : Server) (fd : Int) (events : List ConnEvent)
    (hone : hasFlag server.connEvent_ EPOLLONESHOT)
    (hno : server.timeoutMS_ ≤ 0 ∨ ConnEvent.tick ∉ events) :
    ((accepted server fd).run events).overlap = false := by
  have key : ∀ (evs : List ConnEvent) (s : ConnSystem), s.server = server →
      (server.timeoutMS_ ≤ 0 ∨ ConnEvent.tick ∉ evs) → s.Exclusive →
      (s.run evs).Exclusive := by
    intro evs
    induction evs with
    | nil =>
      intro s _ _ h
      exact h
    | cons e es ih =>
      intro s hs hn h
      simp only [run, List.foldl_cons]
      apply ih (s.step e) ((step_server s e).trans hs)
      · rcases hn with hn | hn
        · exact Or.inl hn
        · exact Or.inr (fun hm => hn (List.mem_cons_of_mem _ hm))
      · apply step_exclusive s e (hs ▸ hone) _ h
        rcases hn with hn | hn
        · exact Or.inl (hs ▸ hn)
        · exact Or.inr (fun he => hn (he ▸ List.mem_cons_self _ _))
  exact (key events _ (accepted_exclusive server fd hone).2 hno
    (accepted_exclusive server fd hone).1).1

theorem run_exclusive_example :
    hasFlag untimedServer.connEvent_ EPOLLONESHOT ∧
      ((accepted untimedServer 7).run slowRead).overlap = false ∧
      ((accepted untimedServer 7).run slowRead).inHandler = [(0, .onRead_ 7)] ∧
      ((accepted edgeServer 7).run twoRequests).overlap = false ∧
      ((accepted edgeServer 7).run twoRequests).mux.armed = true := by
  decide

/-- C22, as the source has it: fd 7 is accepted by a server with the timeout 60000 ms; the
mux reports it readable, worker 0 enters `onRead_` (Reactor) or `onProcess_` (Proactor),
60000 ms pass without the worker returning, and the loop thread reaches `getNextTick()`:
the entry of fd 7 has expired and its callback `closeConn_` runs on the loop thread while
worker 0 is inside its handler for fd 7. Two threads execute a handler for the same fd at
the same time, in both dispatch modes. -/
theorem timer_close_overlaps :
    ((accepted edgeServer 7).run (slowRead.take 3)).inHandler = [(0, .onRead_ 7)] ∧
    ((accepted edgeServer 7).run (slowRead.take 3)).overlap = false ∧
    ((accepted edgeServer 7).run (slowRead.take 3)).mux.armed = false ∧
    ((accepted edgeServer 7).run (slowRead.take 3)).timer.expired 60000 = true ∧
    ((accepted edgeServer 7).run slowRead).inHandler = [(0, .onRead_ 7)] ∧
    ((accepted edgeServer 7).run slowRead).mux.registered = false ∧
    ((accepted edgeServer 7).run slowRead).overlap = true ∧
    ((accepted proactorServer 7).run (slowRead.take 3)).inHandler = [(0, .onProcess_ 7)] ∧
    ((accepted proactorServer 7).run slowRead).inHandler = [(0, .onProcess_ 7)] ∧
    ((accepted proactorServer 7).run slowRead).overlap = true := by
  decide

end ConnSystem

end WebServer
